import Mathlib

/-!
# updatebot: a verification development for `cmd/updatebot/main.go`

The program is a one-shot command-line tool: it validates two options, obtains a
token, optionally resolves an avatar image to a base64 data URI, sends one HTTP
PATCH and prints the result.

The embedding is shallow.  Every Go function of `main.go` becomes a Lean function
of the same name; `getAvatarBase64` and `main` are cut at their join points into
`isAbsoluteURL`, `encodeImage`, `buildPatch` and `submit`.  Everything the program
reads from outside (environment, terminal, file system, HTTP servers, the URL parser,
the JSON decoder of the response) is a field of `World`; every call by which the
program reads or acts on its surroundings is recorded, in program order, as an
`Event`.  A function that performs such calls returns its Go result together with the
list of events it produced.  `os.Exit` ends the run with the given exit code.

A Go string is a sequence of bytes.  The strings whose bytes the program inspects or
serializes, namely the option `-username` and the two fields of the payload, are
values of `GoString`, a list of bytes that need not be valid UTF-8; `utf8 s` is the
Go string holding the text `s`, and Go's `len` is the length of the list.  All other
strings (the avatar source, the token, messages, header values, printed text) are
passed on unchanged and are modelled by `String`.  Byte slices are lists of `Byte`; a
nil slice and an empty slice are both `[]`.  The option values are taken after
`flag.Parse()` has returned.
-/

namespace Updatebot

/-! ## Data model -/

/-- One byte of a Go `[]byte`. -/
abbrev Byte := Fin 256

/-- A Go string: any sequence of bytes. -/
abbrev GoString := List Byte

/-- The byte with value `n` modulo 256. -/
def byte (n : Nat) : Byte := ⟨n % 256, Nat.mod_lt _ (by decide)⟩

/-- The UTF-8 encoding of one character: one to four bytes. -/
def utf8EncodeChar (c : Char) : List Byte :=
  let v := c.toNat
  if v < 0x80 then [byte v]
  else if v < 0x800 then [byte (0xC0 + v / 64), byte (0x80 + v % 64)]
  else if v < 0x10000 then
    [byte (0xE0 + v / 4096), byte (0x80 + v / 64 % 64), byte (0x80 + v % 64)]
  else
    [byte (0xF0 + v / 262144), byte (0x80 + v / 4096 % 64), byte (0x80 + v / 64 % 64),
      byte (0x80 + v % 64)]

/-- The Go string that holds the text `s`: its UTF-8 encoding. -/
def utf8 (s : String) : GoString := s.data.flatMap utf8EncodeChar

/-- The Go struct `ModifyCurrentUser` (both fields carry the tag `omitempty`). -/
structure ModifyCurrentUser where
  Username : GoString
  Avatar : GoString
  deriving DecidableEq

/-- The Go struct `User`. -/
structure User where
  ID : String
  Username : String
  Discriminator : String
  Avatar : String
  deriving DecidableEq

/-- The two fields of `url.URL` that `getAvatarBase64` inspects. -/
structure URL where
  Scheme : String
  Host : String
  deriving DecidableEq

/-- An outgoing `http.Request`: method, target, headers in the order they were
set, and the body text. -/
structure Request where
  Method : String
  URL : String
  Header : List (String × String)
  Body : String
  deriving DecidableEq

/-- An `http.Response` as far as the program looks at it: `StatusCode`, the
status text `Status` (for example `404 Not Found`), and what reading the body to
the end yields. -/
structure Response where
  StatusCode : Nat
  Status : String
  Body : Except String (List Byte)

/-- Everything outside the process.  Each field is the outcome of one library or
system call of `main.go`; an `Option String` result is the Go `error` (`none`
is `nil`). -/
structure World where
  /-- Outcome of `os.LookupEnv`. -/
  LookupEnv : String → Option String
  /-- Outcome of `os.Stdout.Stat()`: `none` when it fails, otherwise whether the mode has
  `os.ModeCharDevice`. -/
  StdoutCharDevice : Option Bool
  /-- Outcome of `term.ReadPassword`. -/
  ReadPassword : Except String String
  /-- Outcome of `url.ParseRequestURI`. -/
  ParseRequestURI : String → Except String URL
  /-- Outcome of `os.Stat`, its error only. -/
  Stat : String → Option String
  /-- Outcome of `ioutil.ReadFile`. -/
  ReadFile : String → Except String (List Byte)
  /-- Outcome of `http.NewRequest` and `http.NewRequestWithContext`, the error only. -/
  NewRequest : String → String → Option String
  /-- Outcome of `http.DefaultClient.Do`. -/
  Do : Request → Except String Response
  /-- Outcome of `json.NewDecoder(res.Body).Decode(&modifiedUser)`. -/
  DecodeUser : Response → Except String User

/-- Calls with which the program reads or acts on its surroundings, recorded in
program order, together with the calls of the two pure library functions that turn
the image into its content type and its base64 text. -/
inductive Event where
  /-- Call of `os.LookupEnv`. -/
  | LookupEnv (key : String)
  /-- Call of `os.Stdout.Stat`. -/
  | StdoutStat
  /-- Call of `term.ReadPassword`. -/
  | ReadPassword
  /-- Text written to standard output. -/
  | Stdout (text : String)
  /-- Text written to standard error. -/
  | Stderr (text : String)
  /-- Call of `flag.Usage`, which writes the usage message to standard error. -/
  | Usage
  /-- Call of `os.Stat`. -/
  | Stat (name : String)
  /-- Call of `ioutil.ReadFile`. -/
  | ReadFile (name : String)
  /-- Call of `http.NewRequest` or `http.NewRequestWithContext`. -/
  | NewRequest (method url : String)
  /-- Call of `http.DefaultClient.Do`: the request goes out on the network. -/
  | Do (req : Request)
  /-- Call of `http.DetectContentType`. -/
  | DetectContentType (data : List Byte)
  /-- Call of `base64.StdEncoding.EncodeToString`. -/
  | EncodeToString (data : List Byte)
  /-- A run-time panic (nil dereference). -/
  | Panic
  deriving DecidableEq

/-- Concatenation of everything a trace wrote to standard output. -/
def stdoutOf : List Event → String
  | [] => ""
  | Event.Stdout s :: t => s ++ stdoutOf t
  | _ :: t => stdoutOf t

/-- Concatenation of everything a trace wrote to standard error through `fmt`. -/
def stderrOf : List Event → String
  | [] => ""
  | Event.Stderr s :: t => s ++ stderrOf t
  | _ :: t => stderrOf t

/-- Whether an event touches the network. -/
def Event.isNetwork : Event → Bool
  | Event.Do _ => true
  | _ => false

/-- Whether an event touches the file system. -/
def Event.isFile : Event → Bool
  | Event.Stat _ => true
  | Event.ReadFile _ => true
  | _ => false

/-- Text `needle` occurs somewhere inside `hay`. -/
def Contains (hay needle : String) : Prop := needle.data <:+: hay.data

instance (hay needle : String) : Decidable (Contains hay needle) :=
  inferInstanceAs (Decidable (needle.data <:+: hay.data))

/-! ## Go standard library functions used by the program

These are not part of the repository; they are modelled after the Go standard
library so that the program can be evaluated on concrete inputs. -/

/-- The bytes of an ASCII string literal. -/
def ascii (s : String) : List Byte :=
  s.data.map fun c => Fin.ofNat c.toNat

/-! ### `encoding/base64`: `StdEncoding.EncodeToString` -/

/-- The alphabet of `base64.StdEncoding`. -/
def encodeStd : List Char :=
  "ABCDEFGHIJKLMNOPQRSTUVWXYZabcdefghijklmnopqrstuvwxyz0123456789+/".data

/-- Lookup `enc.encode[i]`. -/
def encodeIndex (i : Nat) : Char := encodeStd.getD i 'A'

/-- The characters of `base64.StdEncoding.EncodeToString(src)`: whole groups of three
bytes give four characters; a remainder of one or two bytes gives two or three
characters followed by the padding character `=`. -/
def encodeChars : List Byte → List Char
  | [] => []
  | [a] =>
    let val := a.val <<< 16
    [encodeIndex (val >>> 18 &&& 0x3F), encodeIndex (val >>> 12 &&& 0x3F), '=', '=']
  | [a, b] =>
    let val := a.val <<< 16 ||| b.val <<< 8
    [encodeIndex (val >>> 18 &&& 0x3F), encodeIndex (val >>> 12 &&& 0x3F),
      encodeIndex (val >>> 6 &&& 0x3F), '=']
  | a :: b :: c :: rest =>
    let val := a.val <<< 16 ||| b.val <<< 8 ||| c.val
    encodeIndex (val >>> 18 &&& 0x3F) :: encodeIndex (val >>> 12 &&& 0x3F) ::
      encodeIndex (val >>> 6 &&& 0x3F) :: encodeIndex (val &&& 0x3F) :: encodeChars rest

/-- Model of `base64.StdEncoding.EncodeToString`. -/
def EncodeToString (src : List Byte) : String := String.mk (encodeChars src)

/-! ### `net/http`: `DetectContentType` (file `sniff.go`) -/

/-- Go `isWS`: whitespace bytes of the sniffing algorithm. -/
def isWS (b : Byte) : Bool :=
  b.val = 0x09 || b.val = 0x0A || b.val = 0x0C || b.val = 0x0D || b.val = 0x20

/-- Go `isTT`: tag-terminating bytes. -/
def isTT (b : Byte) : Bool :=
  b.val = 0x20 || b.val = 0x3E

/-- The kinds of entry of the table `sniffSignatures`. -/
inductive sniffSig where
  | htmlSig (h : List Byte)
  | maskedSig (mask pat : List Byte) (skipWS : Bool) (ct : String)
  | exactSig (sig : List Byte) (ct : String)
  | mp4Sig
  | textSig

/-- One step of the loop of `htmlSig.match`: byte `b` of the signature against byte
`db` of the data; for an upper-case signature byte the data byte is masked with
`0xDF` first. -/
def htmlByteEq (b db : Byte) : Bool :=
  let db := if 0x41 ≤ b.val ∧ b.val ≤ 0x5A then db.val &&& 0xDF else db.val
  b.val = db

/-- Go `htmlSig.match`. -/
def htmlMatch (h data : List Byte) (firstNonWS : Nat) : String :=
  let data := data.drop firstNonWS
  if data.length < h.length + 1 then ""
  else if !(List.zip h data).all (fun p => htmlByteEq p.1 p.2) then ""
  else if !(data.drop h.length).head?.any isTT then ""
  else "text/html; charset=utf-8"

/-- Go `maskedSig.match`. -/
def maskedMatch (mask pat : List Byte) (skipWS : Bool) (ct : String)
    (data : List Byte) (firstNonWS : Nat) : String :=
  let data := if skipWS then data.drop firstNonWS else data
  if pat.length ≠ mask.length then ""
  else if data.length < pat.length then ""
  else if !(List.zip pat (List.zip mask data)).all (fun p => p.2.2.val &&& p.2.1.val = p.1.val)
  then ""
  else ct

/-- Go `exactSig.match`: `bytes.HasPrefix(data, e.sig)`. -/
def exactMatch (sig : List Byte) (ct : String) (data : List Byte) : String :=
  if sig.isPrefixOf data then ct else ""

/-- Big-endian value of a list of bytes (`binary.BigEndian.Uint32` on four bytes). -/
def bigEndian (bs : List Byte) : Nat :=
  bs.foldl (fun acc b => acc * 256 + b.val) 0

/-- Go `mp4Sig.match`: the box size is read from the first four bytes, bytes 4 to 7
must be `ftyp`, and some brand at offset 8, 16, 20, ... below the box size must
start with `mp4` (offset 12, the minor version, is skipped). -/
def mp4Match (data : List Byte) : String :=
  if data.length < 12 then ""
  else
    let boxSize := bigEndian (data.take 4)
    if data.length < boxSize ∨ boxSize % 4 ≠ 0 then ""
    else if (data.drop 4).take 4 ≠ ascii "ftyp" then ""
    else if (List.range ((boxSize - 8) / 4)).any
        (fun k => 8 + 4 * k ≠ 12 && (data.drop (8 + 4 * k)).take 3 = ascii "mp4")
    then "video/mp4"
    else ""

/-- Go `textSig.match`: no binary data byte after the leading whitespace. -/
def textMatch (data : List Byte) (firstNonWS : Nat) : String :=
  if (data.drop firstNonWS).any (fun b =>
      b.val ≤ 0x08 || b.val = 0x0B || (0x0E ≤ b.val && b.val ≤ 0x1A) ||
        (0x1C ≤ b.val && b.val ≤ 0x1F))
  then ""
  else "text/plain; charset=utf-8"

/-- Method `match` of the interface `sniffSig`: the content type, or `""`. -/
def sniffSig.match (data : List Byte) (firstNonWS : Nat) : sniffSig → String
  | .htmlSig h => htmlMatch h data firstNonWS
  | .maskedSig mask pat skipWS ct => maskedMatch mask pat skipWS ct data firstNonWS
  | .exactSig sig ct => exactMatch sig ct data
  | .mp4Sig => mp4Match data
  | .textSig => textMatch data firstNonWS

/-- A list of `n` bytes, each equal to `b`. -/
def rep (n : Nat) (b : Byte) : List Byte := List.replicate n b

/-- The table `sniffSignatures`, in order. -/
def sniffSignatures : List sniffSig :=
  [ .htmlSig (ascii "<!DOCTYPE HTML"),
    .htmlSig (ascii "<HTML"),
    .htmlSig (ascii "<HEAD"),
    .htmlSig (ascii "<SCRIPT"),
    .htmlSig (ascii "<IFRAME"),
    .htmlSig (ascii "<H1"),
    .htmlSig (ascii "<DIV"),
    .htmlSig (ascii "<FONT"),
    .htmlSig (ascii "<TABLE"),
    .htmlSig (ascii "<A"),
    .htmlSig (ascii "<STYLE"),
    .htmlSig (ascii "<TITLE"),
    .htmlSig (ascii "<B"),
    .htmlSig (ascii "<BODY"),
    .htmlSig (ascii "<BR"),
    .htmlSig (ascii "<P"),
    .htmlSig (ascii "<!--"),
    .maskedSig (rep 5 0xFF) (ascii "<?xml") true "text/xml; charset=utf-8",
    .exactSig (ascii "%PDF-") "application/pdf",
    .exactSig (ascii "%!PS-Adobe-") "application/postscript",
    -- UTF BOMs
    .maskedSig [0xFF, 0xFF, 0x00, 0x00] [0xFE, 0xFF, 0x00, 0x00] false
      "text/plain; charset=utf-16be",
    .maskedSig [0xFF, 0xFF, 0x00, 0x00] [0xFF, 0xFE, 0x00, 0x00] false
      "text/plain; charset=utf-16le",
    .maskedSig [0xFF, 0xFF, 0xFF, 0x00] [0xEF, 0xBB, 0xBF, 0x00] false
      "text/plain; charset=utf-8",
    -- image types
    .exactSig [0x00, 0x00, 0x01, 0x00] "image/x-icon",
    .exactSig [0x00, 0x00, 0x02, 0x00] "image/x-icon",
    .exactSig (ascii "BM") "image/bmp",
    .exactSig (ascii "GIF87a") "image/gif",
    .exactSig (ascii "GIF89a") "image/gif",
    .maskedSig (rep 4 0xFF ++ rep 4 0x00 ++ rep 6 0xFF)
      (ascii "RIFF" ++ rep 4 0x00 ++ ascii "WEBPVP") false "image/webp",
    .exactSig [0x89, 0x50, 0x4E, 0x47, 0x0D, 0x0A, 0x1A, 0x0A] "image/png",
    .exactSig [0xFF, 0xD8, 0xFF] "image/jpeg",
    -- audio and video types
    .maskedSig (rep 4 0xFF) (ascii ".snd") false "audio/basic",
    .maskedSig (rep 4 0xFF ++ rep 4 0x00 ++ rep 4 0xFF)
      (ascii "FORM" ++ rep 4 0x00 ++ ascii "AIFF") false "audio/aiff",
    .maskedSig (rep 3 0xFF) (ascii "ID3") false "audio/mpeg",
    .maskedSig (rep 5 0xFF) (ascii "OggS" ++ [0x00]) false "application/ogg",
    .maskedSig (rep 8 0xFF) (ascii "MThd" ++ [0x00, 0x00, 0x00, 0x06]) false "audio/midi",
    .maskedSig (rep 4 0xFF ++ rep 4 0x00 ++ rep 4 0xFF)
      (ascii "RIFF" ++ rep 4 0x00 ++ ascii "AVI ") false "video/avi",
    .maskedSig (rep 4 0xFF ++ rep 4 0x00 ++ rep 4 0xFF)
      (ascii "RIFF" ++ rep 4 0x00 ++ ascii "WAVE") false "audio/wave",
    .mp4Sig,
    .exactSig [0x1A, 0x45, 0xDF, 0xA3] "video/webm",
    -- font types
    .maskedSig (rep 34 0x00 ++ rep 2 0xFF) (rep 34 0x00 ++ ascii "LP") false
      "application/vnd.ms-fontobject",
    .exactSig [0x00, 0x01, 0x00, 0x00] "font/ttf",
    .exactSig (ascii "OTTO") "font/otf",
    .exactSig (ascii "ttcf") "font/collection",
    .exactSig (ascii "wOFF") "font/woff",
    .exactSig (ascii "wOF2") "font/woff2",
    -- archive types
    .exactSig [0x1F, 0x8B, 0x08] "application/x-gzip",
    .exactSig (ascii "PK" ++ [0x03, 0x04]) "application/zip",
    .exactSig (ascii "Rar!" ++ [0x1A, 0x07, 0x00]) "application/x-rar-compressed",
    .exactSig (ascii "Rar!" ++ [0x1A, 0x07, 0x01, 0x00]) "application/x-rar-compressed",
    .exactSig [0x00, 0x61, 0x73, 0x6D] "application/wasm",
    .textSig ]

/-- The loop of `DetectContentType` over the table: the first non-empty match, or
the fallback type. -/
def firstMatch (data : List Byte) (firstNonWS : Nat) : List sniffSig → String
  | [] => "application/octet-stream"
  | sig :: sigs =>
    let ct := sig.match data firstNonWS
    if ct ≠ "" then ct else firstMatch data firstNonWS sigs

/-- Model of `http.DetectContentType`: at most the first 512 bytes are considered. -/
def DetectContentType (data : List Byte) : String :=
  let data := data.take 512
  let firstNonWS := (data.takeWhile isWS).length
  firstMatch data firstNonWS sniffSignatures

/-! ### `unicode/utf8`: `DecodeRuneInString` -/

/-- A continuation byte, `0x80` to `0xBF`. -/
def isCont (b : Byte) : Bool := 0x80 ≤ b.val && b.val ≤ 0xBF

/-- Model of `utf8.DecodeRuneInString`: the first character of the bytes and the
number of bytes it takes.  `(none, 1)` stands for the result `(RuneError, 1)` on a
byte that does not begin a valid encoding (overlong forms, surrogates and values
above U+10FFFF are not valid); `(none, 0)` is the result on the empty string. -/
def decodeRune : List Byte → Option Char × Nat
  | [] => (none, 0)
  | b0 :: rest =>
    if b0.val < 0x80 then (some (Char.ofNat b0.val), 1)
    else if 0xC2 ≤ b0.val ∧ b0.val ≤ 0xDF then
      match rest with
      | b1 :: _ =>
        if isCont b1 then (some (Char.ofNat (b0.val % 32 * 64 + b1.val % 64)), 2)
        else (none, 1)
      | _ => (none, 1)
    else if 0xE0 ≤ b0.val ∧ b0.val ≤ 0xEF then
      match rest with
      | b1 :: b2 :: _ =>
        if (if b0.val = 0xE0 then 0xA0 else 0x80) ≤ b1.val ∧
            b1.val ≤ (if b0.val = 0xED then 0x9F else 0xBF) ∧ isCont b2 then
          (some (Char.ofNat (b0.val % 16 * 4096 + b1.val % 64 * 64 + b2.val % 64)), 3)
        else (none, 1)
      | _ => (none, 1)
    else if 0xF0 ≤ b0.val ∧ b0.val ≤ 0xF4 then
      match rest with
      | b1 :: b2 :: b3 :: _ =>
        if (if b0.val = 0xF0 then 0x90 else 0x80) ≤ b1.val ∧
            b1.val ≤ (if b0.val = 0xF4 then 0x8F else 0xBF) ∧ isCont b2 ∧ isCont b3 then
          (some (Char.ofNat
            (b0.val % 8 * 262144 + b1.val % 64 * 4096 + b2.val % 64 * 64 + b3.val % 64)), 4)
        else (none, 1)
      | _ => (none, 1)
    else (none, 1)

/-- The loop that walks a Go string character by character, with the number of
steps bounded by `fuel`: `none` marks a byte that is not part of a valid encoding. -/
def decodeRunesAux : Nat → List Byte → List (Option Char)
  | 0, _ => []
  | _, [] => []
  | n + 1, b :: rest =>
    (decodeRune (b :: rest)).1 :: decodeRunesAux n ((b :: rest).drop (decodeRune (b :: rest)).2)

/-- The characters of a Go string, as `for _, r := range s` and the JSON encoder see
them; every step consumes at least one byte, so the length is enough fuel. -/
def decodeRunes (s : GoString) : List (Option Char) := decodeRunesAux s.length s

/-! ### `encoding/json`: encoding of a struct of strings -/

/-- A hexadecimal digit, lower case. -/
def hexDigit (n : Nat) : Char := "0123456789abcdef".data.getD n '0'

/-- How the encoder writes one valid character inside a JSON string (HTML escaping
is on by default): quote and backslash get a backslash; backspace, form feed,
newline, carriage return and tab their short form; other control characters and the
characters `<`, `>`, `&` the form `\u00XX`; U+2028 and U+2029 the form `\u202X`; every
other character is copied. -/
def escapeChar (c : Char) : List Char :=
  if c = '\\' ∨ c = '"' then ['\\', c]
  else if c = '\x08' then ['\\', 'b']
  else if c = '\x0c' then ['\\', 'f']
  else if c = '\n' then ['\\', 'n']
  else if c = '\r' then ['\\', 'r']
  else if c = '\t' then ['\\', 't']
  else if c.toNat < 0x20 ∨ c = '<' ∨ c = '>' ∨ c = '&' then
    ['\\', 'u', '0', '0', hexDigit (c.toNat / 16), hexDigit (c.toNat % 16)]
  else if c.toNat = 0x2028 ∨ c.toNat = 0x2029 then
    ['\\', 'u', '2', '0', '2', hexDigit (c.toNat % 16)]
  else [c]

/-- How the encoder writes one step of the walk over the string: a byte that is not
part of a valid encoding is written as the six characters backslash, `u`, `f`, `f`,
`f`, `d`, the escape of U+FFFD. -/
def escapeRune : Option Char → List Char
  | none => ['\\', 'u', 'f', 'f', 'f', 'd']
  | some c => escapeChar c

/-- The characters of the JSON string literal the encoder writes for the Go string
`s`. -/
def quoteChars (s : GoString) : List Char :=
  '"' :: ((decodeRunes s).flatMap escapeRune ++ ['"'])

/-- The members the encoder emits for a `ModifyCurrentUser`, in field order: a field
tagged `omitempty` is left out when the string has length zero. -/
def members (pl : ModifyCurrentUser) : List (String × GoString) :=
  (if pl.Username.length = 0 then [] else [("username", pl.Username)]) ++
  (if pl.Avatar.length = 0 then [] else [("avatar", pl.Avatar)])

/-- One member: the name, a colon, the value. -/
def renderMember (m : String × GoString) : List Char :=
  quoteChars (utf8 m.1) ++ ':' :: quoteChars m.2

/-- The members separated by commas. -/
def renderMembers : List (String × GoString) → List Char
  | [] => []
  | [m] => renderMember m
  | m :: ms => renderMember m ++ ',' :: renderMembers ms

/-- The text of a JSON object with string-valued members. -/
def renderObject (ms : List (String × GoString)) : String :=
  String.mk ('\x7b' :: (renderMembers ms ++ ['\x7d']))

/-- Model of `json.NewEncoder(&buf).Encode(pl)`: the object followed by a newline.
Encoding a struct of two strings cannot fail. -/
def jsonEncode (pl : ModifyCurrentUser) : Except String String :=
  .ok (renderObject (members pl) ++ "\n")

/-! ## The program `cmd/updatebot/main.go`

The two option values `username` and `avatar` are the package variables after
`flag.Parse()` has returned. -/

/-- The package variable `ALLOWED_AVATAR_MIME_TYPES`. -/
def ALLOWED_AVATAR_MIME_TYPES : List String :=
  ["image/png", "image/jpeg"]

/-- Go `init` after `flag.Parse()`: the events, and the exit code when the process
is terminated by `os.Exit`.  The empty Go string is `[]`, and `len(username)` is the
number of bytes. -/
def init (username : GoString) (avatar : String) : List Event × Option Nat :=
  if username = [] ∧ avatar = "" then
    ([.Stderr "incorrect usage: must provide at least one of `-avatar`, `-username`\n",
      .Stderr "\n", .Usage], some 1)
  else if username ≠ [] ∧ (username.length ≤ 2 ∨ username.length ≥ 32) then
    ([.Stderr "username must be 2-32 characters in length.\n"], some 1)
  else ([], none)

/-- Go `isTTY`; `none` is the nil dereference when `os.Stdout.Stat()` fails. -/
def isTTY (w : World) : Option Bool × List Event :=
  (w.StdoutCharDevice, [.StdoutStat])

/-- Go `getToken`; `none` is the panic inside `isTTY`. -/
def getToken (w : World) : Option String × List Event :=
  match w.LookupEnv "DISCORD_TOKEN" with
  | some token => (some token, [.LookupEnv "DISCORD_TOKEN"])
  | none =>
    match isTTY w with
    | (none, t) => (none, .LookupEnv "DISCORD_TOKEN" :: t ++ [.Panic])
    | (some false, t) => (some "", .LookupEnv "DISCORD_TOKEN" :: t)
    | (some true, t) =>
      let t := .LookupEnv "DISCORD_TOKEN" :: t ++
        [.Stdout "Bot Token (imput feedback is NOT shown) >> ", .ReadPassword, .Stdout "\n"]
      match w.ReadPassword with
      | .error _ => (some "", t)
      | .ok tkn => (some tkn, t)

/-- Go `isMimeTypeAllowed`. -/
def isMimeTypeAllowed (mimeType : String) : Bool :=
  ALLOWED_AVATAR_MIME_TYPES.any fun mt => mt = mimeType

/-- Go `getImage`: the byte slice (nil is `[]`) and the error. -/
def getImage (w : World) (url : String) : (List Byte × Option String) × List Event :=
  match w.NewRequest "GET" url with
  | some err => (([], some ("failed to create request: " ++ err)), [.NewRequest "GET" url])
  | none =>
    let req : Request := ⟨"GET", url, [], ""⟩
    match w.Do req with
    | .error err =>
      (([], some ("failed to get image from server: " ++ err)),
        [.NewRequest "GET" url, .Do req])
    | .ok res =>
      if res.StatusCode ≠ 200 then
        (([], some ("image server responded with non-200 error: " ++ res.Status)),
          [.NewRequest "GET" url, .Do req])
      else
        match res.Body with
        | .error err =>
          (([], some ("failed to read response body: " ++ err)),
            [.NewRequest "GET" url, .Do req])
        | .ok bdy => ((bdy, none), [.NewRequest "GET" url, .Do req])

/-- The condition of the first `if` of `getAvatarBase64`:
`err == nil && u.Scheme != "" && u.Host != ""`. -/
def isAbsoluteURL (w : World) (avatar : String) : Bool :=
  match w.ParseRequestURI avatar with
  | .ok u => u.Scheme ≠ "" && u.Host ≠ ""
  | .error _ => false

/-- The part of `getAvatarBase64` after the image bytes have been obtained (from the
emptiness check to the final return), common to both branches. -/
def encodeImage (img : List Byte) : (String × String × Option String) × List Event :=
  if img.length = 0 then (("", "", some "image file was empty"), [])
  else
    let contentType := DetectContentType img
    if !isMimeTypeAllowed contentType then
      (("", "", some ("mime type " ++ contentType ++ " not allowed")),
        [.DetectContentType img])
    else
      let encoded := EncodeToString img
      ((encoded, contentType, none), [.DetectContentType img, .EncodeToString img])

/-- Go `getAvatarBase64`: the triple (payload, MIME type, error) and the events.  In
the URL branch the error returned by `getImage` is assigned to `err` and never
read again. -/
def getAvatarBase64 (w : World) (avatar : String) :
    (String × String × Option String) × List Event :=
  if isAbsoluteURL w avatar then
    match getImage w avatar with
    | ((img, _), t) =>
      match encodeImage img with
      | (r, t') => (r, t ++ t')
  else
    match w.Stat avatar with
    | some err => (("", "", some err), [.Stat avatar])
    | none =>
      match w.ReadFile avatar with
      | .error err => (("", "", some err), [.Stat avatar, .ReadFile avatar])
      | .ok img =>
        match encodeImage img with
        | (r, t') => (r, .Stat avatar :: .ReadFile avatar :: t')

/-- The request that `modifyUser` builds for a token and a serialized payload. -/
def patchRequest (token buf : String) : Request :=
  ⟨"PATCH", "https://discord.com/api/v10/users/@me",
    [("Authorization", "Bot " ++ token), ("Content-Type", "application/json")], buf⟩

/-- Go `modifyUser`: the returned user, or the error. -/
def modifyUser (w : World) (token : String) (pl : ModifyCurrentUser) :
    Except String User × List Event :=
  match jsonEncode pl with
  | .error _ => (.error "failed to serialize request payload", [])
  | .ok buf =>
    match w.NewRequest "PATCH" "https://discord.com/api/v10/users/@me" with
    | some err =>
      (.error ("failed to create request: " ++ err),
        [.NewRequest "PATCH" "https://discord.com/api/v10/users/@me"])
    | none =>
      let req := patchRequest token buf
      let t := [.NewRequest "PATCH" "https://discord.com/api/v10/users/@me", .Do req]
      match w.Do req with
      | .error err => (.error ("failed to modify user: " ++ err), t)
      | .ok res =>
        if res.StatusCode ≠ 200 then
          (.error ("discord responded with non-200 status: " ++ res.Status), t)
        else
          match w.DecodeUser res with
          | .error err =>
            (.error ("failed to deserialize response from discord: " ++ err), t)
          | .ok modifiedUser => (.ok modifiedUser, t)

/-- The part of `main` after `patch` has been built: the second usage check, the
call of `modifyUser`, and the confirmation. -/
def submit (w : World) (tkn : String) (patch : ModifyCurrentUser) : List Event × Nat :=
  if patch.Avatar = [] ∧ patch.Username = [] then
    ([.Stderr "incorrect usage: must provide at least one of `-avatar`, `-username`\n",
      .Stderr "\n", .Usage], 1)
  else
    match modifyUser w tkn patch with
    | (.error err, t) => (t ++ [.Stderr ("failed to modify user: " ++ err ++ "\n")], 1)
    | (.ok newUser, t) =>
      (t ++ [.Stdout "Updated user\n"] ++
        (if patch.Username ≠ [] then
          [.Stdout ("  => Username: " ++ newUser.Username ++ "#" ++ newUser.Discriminator ++ "\n")]
        else []) ++
        (if patch.Avatar ≠ [] then
          [.Stdout ("  => Avatar  : https://cdn.discordapp.com/avatars/" ++ newUser.ID ++ "/" ++
            newUser.Avatar ++ ".png\n")]
        else []), 0)

/-- The part of `main` before the second usage check: the token is obtained and
`patch` is built.  The result is the exit code when the process is terminated
here, otherwise the token and the payload. -/
def buildPatch (w : World) (username : GoString) (avatar : String) :
    List Event × Except Nat (String × ModifyCurrentUser) :=
  match getToken w with
  | (none, t) => (t, .error 2)
  | (some tkn, t) =>
    if tkn = "" then (t ++ [.Stderr "no token was provided\n"], .error 1)
    else if avatar ≠ "" then
      match getAvatarBase64 w avatar with
      | ((_, _, some err), ta) =>
        (t ++ ta ++ [.Stderr ("error reading avatar: " ++ err ++ "\n")], .error 1)
      | ((b64, mime, none), ta) =>
        (t ++ ta, .ok (tkn, ⟨username, utf8 ("data:" ++ mime ++ ";base64," ++ b64)⟩))
    else (t, .ok (tkn, ⟨username, []⟩))

/-- Go `main`: the events and the exit code of the process. -/
def main (w : World) (username : GoString) (avatar : String) : List Event × Nat :=
  match buildPatch w username avatar with
  | (t, .error code) => (t, code)
  | (t, .ok (tkn, patch)) =>
    match submit w tkn patch with
    | (ts, code) => (t ++ ts, code)

/-- A run of the process: `init`, then `main` unless `init` has exited. -/
def run (w : World) (username : GoString) (avatar : String) : List Event × Nat :=
  match init username avatar with
  | (t, some code) => (t, code)
  | (t, none) =>
    match main w username avatar with
    | (tm, code) => (t ++ tm, code)

/-- The value of the character written for one step of the walk over a Go string:
the character itself, or U+FFFD for a byte that is not part of a valid encoding. -/
def runeValue : Option Char → Char
  | none => Char.ofNat 0xFFFD
  | some c => c

/-- The text of a Go string in which every byte that is not part of a valid UTF-8
encoding is replaced by U+FFFD. -/
def coerceUTF8 (s : GoString) : String := String.mk ((decodeRunes s).map runeValue)

/-- The value of a hexadecimal digit. -/
def hexValue (c : Char) : Option Nat :=
  if 0x30 ≤ c.toNat ∧ c.toNat ≤ 0x39 then some (c.toNat - 0x30)
  else if 0x61 ≤ c.toNat ∧ c.toNat ≤ 0x66 then some (c.toNat - 0x61 + 10)
  else if 0x41 ≤ c.toNat ∧ c.toNat ≤ 0x46 then some (c.toNat - 0x41 + 10)
  else none

/-- The character denoted by a short escape of JSON (RFC 8259, section 7). -/
def unescapeShort (e : Char) : Option Char :=
  if e = '"' then some '"'
  else if e = '\\' then some '\\'
  else if e = '/' then some '/'
  else if e = 'b' then some '\x08'
  else if e = 'f' then some '\x0c'
  else if e = 'n' then some '\n'
  else if e = 'r' then some '\r'
  else if e = 't' then some '\t'
  else none

/-- Reads what follows a backslash: a short escape, or `u` and four hexadecimal
digits. -/
def readEscape : List Char → Option (Char × List Char)
  | [] => none
  | e :: rest =>
    if e = 'u' then
      match rest with
      | h1 :: h2 :: h3 :: h4 :: rest =>
        match hexValue h1, hexValue h2, hexValue h3, hexValue h4 with
        | some a, some b, some c, some d =>
          some (Char.ofNat (a * 4096 + b * 256 + c * 16 + d), rest)
        | _, _, _, _ => none
      | _ => none
    else (unescapeShort e).map fun c => (c, rest)

/-- Reads a JSON string after its opening quote, in at most `fuel` steps: the
characters up to the closing quote, with escapes resolved, and the text after the
closing quote.  Control characters must be escaped. -/
def readStringAux : Nat → List Char → Option (List Char × List Char)
  | 0, _ => none
  | _ + 1, [] => none
  | n + 1, c :: rest =>
    if c = '"' then some ([], rest)
    else if c = '\\' then
      match readEscape rest with
      | some (x, rest) => (readStringAux n rest).map fun p => (x :: p.1, p.2)
      | none => none
    else if c.toNat < 0x20 then none
    else (readStringAux n rest).map fun p => (c :: p.1, p.2)

/-- Reads a JSON string after its opening quote. -/
def readString (text : List Char) : Option (List Char × List Char) :=
  readStringAux text.length text

/-- Reads the character `c`. -/
def expect (c : Char) : List Char → Option (List Char)
  | [] => none
  | x :: rest => if x = c then some rest else none

/-- Reads one member `"name":"value"`. -/
def readMember (text : List Char) : Option ((String × String) × List Char) :=
  match expect '"' text with
  | none => none
  | some rest =>
    match readString rest with
    | none => none
    | some (k, rest) =>
      match expect ':' rest with
      | none => none
      | some rest =>
        match expect '"' rest with
        | none => none
        | some rest =>
          match readString rest with
          | none => none
          | some (v, rest) => some ((String.mk k, String.mk v), rest)

/-- Reads members separated by commas up to the closing brace, at most `fuel` of
them. -/
def readMembersAux : Nat → List Char → Option (List (String × String) × List Char)
  | 0, _ => none
  | n + 1, text =>
    match readMember text with
    | none => none
    | some (_, []) => none
    | some (m, c :: rest) =>
      if c = ',' then (readMembersAux n rest).map fun p => (m :: p.1, p.2)
      else if c = '\x7d' then some ([m], rest)
      else none

/-- Reads a JSON object with string-valued members: the members in order, names and
values as text, and the text that follows the closing brace. -/
def readObject (text : String) : Option (List (String × String) × String) :=
  match expect '\x7b' text.data with
  | none => none
  | some rest =>
    match expect '\x7d' rest with
    | some rest => some ([], String.mk rest)
    | none => (readMembersAux rest.length rest).map fun p => (p.1, String.mk p.2)

/-! ## Concrete surroundings used to evaluate the program -/

instance {ε α : Type} [DecidableEq ε] [DecidableEq α] : DecidableEq (Except ε α)
  | .ok a, .ok b => if h : a = b then isTrue (by rw [h]) else isFalse (by simpa using h)
  | .error a, .error b => if h : a = b then isTrue (by rw [h]) else isFalse (by simpa using h)
  | .ok _, .error _ => isFalse (by simp)
  | .error _, .ok _ => isFalse (by simp)

/-- The source `avatar` resolves to the image bytes `img`: in the URL branch
`getImage` returns them without error; otherwise `os.Stat` succeeds and
`ioutil.ReadFile` returns them. -/
def Resolves (w : World) (avatar : String) (img : List Byte) : Prop :=
  if isAbsoluteURL w avatar then (getImage w avatar).1 = (img, none)
  else w.Stat avatar = none ∧ w.ReadFile avatar = .ok img

instance (w : World) (avatar : String) (img : List Byte) : Decidable (Resolves w avatar img) := by
  unfold Resolves; infer_instance

/-- Surroundings in which nothing is available: no token in the environment,
standard output is not a terminal, no string is a request URI, no file exists and
no server answers. -/
def bareWorld : World where
  LookupEnv := fun _ => none
  StdoutCharDevice := some false
  ReadPassword := .error "EOF"
  ParseRequestURI := fun _ => .error "invalid URI for request"
  Stat := fun _ => some "no such file or directory"
  ReadFile := fun _ => .error "no such file or directory"
  NewRequest := fun _ _ => none
  Do := fun _ => .error "connection refused"
  DecodeUser := fun _ => .error "EOF"

/-- The account of the end-to-end scenario. -/
def scenarioUser : User := ⟨"42", "newname", "0001", "abc"⟩

/-- Surroundings of the end-to-end scenario: the token `T1` is in the environment and
the API answers every PATCH with status 200 and the account `scenarioUser`. -/
def scenarioWorld : World :=
  { bareWorld with
    LookupEnv := fun k => if k = "DISCORD_TOKEN" then some "T1" else none
    Do := fun req =>
      if req.Method = "PATCH" then .ok ⟨200, "200 OK", .ok []⟩ else .error "connection refused"
    DecodeUser := fun _ => .ok scenarioUser }

/-- Surroundings in which `https://example.com/a.png` is an absolute URL and every
server answers `404 Not Found`. -/
def notFoundWorld : World :=
  { scenarioWorld with
    ParseRequestURI := fun s =>
      if s = "https://example.com/a.png" then .ok ⟨"https", "example.com"⟩
      else .error "invalid URI for request"
    Do := fun _ => .ok ⟨404, "404 Not Found", .ok (ascii "not found")⟩ }

/-- Surroundings like `scenarioWorld` with four files: `a.gif` holds a GIF
header, `a.jpg` a JPEG header, `empty.png` holds nothing, and `a.png` holds the eight
bytes of the PNG signature followed by two zero bytes. -/
def filesWorld : World :=
  { scenarioWorld with
    Stat := fun name =>
      if name = "a.gif" ∨ name = "a.jpg" ∨ name = "empty.png" ∨ name = "a.png" then none
      else some "no such file or directory"
    ReadFile := fun name =>
      if name = "a.gif" then .ok (ascii "GIF89a" ++ [1, 0, 1, 0])
      else if name = "a.jpg" then .ok [0xFF, 0xD8, 0xFF, 0xE0, 0x00, 0x10]
      else if name = "empty.png" then .ok []
      else if name = "a.png" then .ok [0x89, 0x50, 0x4E, 0x47, 0x0D, 0x0A, 0x1A, 0x0A, 0, 0]
      else .error "no such file or directory" }

/-- Surroundings like `scenarioWorld` in which `https://example.com/empty.png` is an
absolute URL and the image server answers 200 with an empty body. -/
def emptyBodyWorld : World :=
  { scenarioWorld with
    ParseRequestURI := fun s =>
      if s = "https://example.com/empty.png" then .ok ⟨"https", "example.com"⟩
      else .error "invalid URI for request"
    Do := fun _ => .ok ⟨200, "200 OK", .ok []⟩ }

/-- Surroundings like `filesWorld` whose URL parser answers as `url.ParseRequestURI`
does on the two strings of the branch scenario: `https://example.com/a.png` has
scheme `https` and host `example.com`; `./a.png` is not a request URI. -/
def branchWorld : World :=
  { filesWorld with
    ParseRequestURI := fun s =>
      if s = "https://example.com/a.png" then .ok ⟨"https", "example.com"⟩
      else .error "invalid URI for request"
    Stat := fun name =>
      if name = "./a.png" then none else some "no such file or directory"
    ReadFile := fun name =>
      if name = "./a.png" then .ok [0x89, 0x50, 0x4E, 0x47, 0x0D, 0x0A, 0x1A, 0x0A, 0, 0]
      else .error "no such file or directory"
    Do := fun req =>
      if req.Method = "GET" then
        .ok ⟨200, "200 OK", .ok [0x89, 0x50, 0x4E, 0x47, 0x0D, 0x0A, 0x1A, 0x0A, 0, 0]⟩
      else .error "connection refused" }

/-- Surroundings like `scenarioWorld` in which the API answers `403 Forbidden`. -/
def forbiddenWorld : World :=
  { scenarioWorld with
    Do := fun _ => .ok ⟨403, "403 Forbidden", .ok []⟩ }

/-- Surroundings like `scenarioWorld` without the token in the environment: standard
output is a terminal and the token `T1` is typed at the prompt. -/
def promptWorld : World :=
  { scenarioWorld with
    LookupEnv := fun _ => none
    StdoutCharDevice := some true
    ReadPassword := .ok "T1" }

/-! ## Theorems -/

/-- Helper: the UTF-8 encoding of a character is not empty. -/
theorem utf8EncodeChar_length_pos (c : Char) : 0 < (utf8EncodeChar c).length := by
  unfold utf8EncodeChar
  simp only
  split_ifs <;> simp

/-- Helper: the number of bytes of the Go string that holds a text is the UTF-8
size of the text. -/
theorem utf8_length (s : String) : (utf8 s).length = s.utf8ByteSize := by
  rcases s with ⟨cs⟩
  simp only [utf8, String.utf8ByteSize_mk]
  induction cs with
  | nil => rfl
  | cons c cs ih =>
    have hc : (utf8EncodeChar c).length = c.utf8Size := by
      have h1 : (c.val ≤ UInt32.ofNatCore 127 (by decide)) ↔ c.toNat ≤ 127 := Iff.rfl
      have h2 : (c.val ≤ UInt32.ofNatCore 2047 (by decide)) ↔ c.toNat ≤ 2047 := Iff.rfl
      have h3 : (c.val ≤ UInt32.ofNatCore 65535 (by decide)) ↔ c.toNat ≤ 65535 := Iff.rfl
      unfold utf8EncodeChar Char.utf8Size
      simp only [h1, h2, h3]
      split_ifs <;> first | rfl | omega
    simp only [List.flatMap_cons, List.length_append, String.utf8Len_cons, ih, hc]
    omega

/-- Helper: only the empty text is held by the empty Go string. -/
theorem utf8_eq_nil (s : String) : utf8 s = [] ↔ s = "" := by
  rcases s with ⟨cs⟩
  cases cs with
  | nil => exact ⟨fun _ => rfl, fun _ => rfl⟩
  | cons c cs =>
    have := utf8EncodeChar_length_pos c
    constructor
    · intro h
      have hl := congrArg List.length h
      simp only [utf8, List.flatMap_cons, List.length_append, List.length_nil] at hl
      omega
    · intro h
      have := congrArg String.data h
      simp at this

/-- Helper: `init` lets the run continue exactly when not both options are empty and
a non-empty username has between 3 and 31 bytes. -/
theorem init_continues_iff (username : GoString) (avatar : String) :
    (init username avatar).2 = none ↔
      ¬(username = [] ∧ avatar = "") ∧
        (username ≠ [] → 3 ≤ username.length ∧ username.length ≤ 31) := by
  unfold init
  split_ifs with h1 h2
  · simp [h1]
  · simp only [reduceCtorEq, false_iff, not_and]
    intro _ h
    have := h h2.1
    omega
  · simp only [true_and, h1, not_false_eq_true, true_iff]
    intro hne
    have : ¬(username.length ≤ 2 ∨ username.length ≥ 32) := fun h => h2 ⟨hne, h⟩
    omega

/-- C1 (code evaluated at the failing input): a username of sixteen characters, each
of two bytes, has thirty-two bytes; `init` rejects it with exit code 1 although its
length in characters lies between 3 and 31.  Conversely a username of two such
characters has four bytes and is accepted. -/
theorem init_rejects_sixteen_characters :
    "éééééééééééééééé".length = 16 ∧
      "éééééééééééééééé".utf8ByteSize = 32 ∧
      (utf8 "éééééééééééééééé").length = 32 ∧
      (decodeRunes (utf8 "éééééééééééééééé")).length = 16 ∧
      init (utf8 "éééééééééééééééé") "" =
        ([Event.Stderr "username must be 2-32 characters in length.\n"], some 1) ∧
      "éé".length = 2 ∧ "éé".utf8ByteSize = 4 ∧ (utf8 "éé").length = 4 ∧
      (decodeRunes (utf8 "éé")).length = 2 ∧ init (utf8 "éé") "" = ([], none) := by
  decide

/-- C8: with both options empty the run is exactly the two lines and the usage message on
standard error followed by exit code 1, whatever the surroundings; the token is
not looked up, and no file or network call is made. -/
theorem run_without_options (w : World) :
    run w [] "" =
        ([Event.Stderr "incorrect usage: must provide at least one of `-avatar`, `-username`\n",
          Event.Stderr "\n", Event.Usage], 1) ∧
      (run w [] "").1 = (init [] "").1 ∧
      (init [] "").2 = some 1 ∧
      (run w [] "").1.getLast? = some Event.Usage ∧
      (∀ e ∈ (run w [] "").1, e.isFile = false ∧ e.isNetwork = false ∧
        (∀ k, e ≠ Event.LookupEnv k) ∧ e ≠ Event.ReadPassword ∧ e ≠ Event.StdoutStat ∧
        (∀ s, e ≠ Event.Stdout s)) := by
  have h : run w [] "" =
      ([Event.Stderr "incorrect usage: must provide at least one of `-avatar`, `-username`\n",
        Event.Stderr "\n", Event.Usage], 1) := by
    simp [run, init]
  refine ⟨h, ?_, ?_, ?_, ?_⟩
  · rw [h]; simp [init]
  · simp [init]
  · rw [h]; rfl
  · rw [h]
    intro e he
    simp only [List.mem_cons, List.mem_singleton, List.not_mem_nil, or_false] at he
    rcases he with rfl | rfl | rfl <;> simp [Event.isFile, Event.isNetwork]

/-- Witness for C8: the run in surroundings where nothing is available. -/
theorem run_without_options_witness :
    run bareWorld [] "" =
      ([Event.Stderr "incorrect usage: must provide at least one of `-avatar`, `-username`\n",
        Event.Stderr "\n", Event.Usage], 1) ∧
      ∀ e ∈ (run bareWorld [] "").1, e.isFile = false ∧ e.isNetwork = false ∧
        (∀ k, e ≠ Event.LookupEnv k) ∧ e ≠ Event.ReadPassword ∧ e ≠ Event.StdoutStat ∧
        (∀ s, e ≠ Event.Stdout s) :=
  ⟨(run_without_options bareWorld).1, (run_without_options bareWorld).2.2.2.2⟩

/-- Helper: whenever `getImage` returns an error, the byte slice it returns is nil. -/
theorem getImage_error_nil (w : World) (url : String) (e : String)
    (h : (getImage w url).1.2 = some e) : (getImage w url).1.1 = [] := by
  cases h1 : w.NewRequest "GET" url with
  | some err => simp [getImage, h1]
  | none =>
    cases h2 : w.Do ⟨"GET", url, [], ""⟩ with
    | error err => simp [getImage, h1, h2]
    | ok res =>
      by_cases hc : res.StatusCode = 200
      · cases h3 : res.Body with
        | error err => simp [getImage, h1, h2, hc, h3]
        | ok bdy => simp [getImage, h1, h2, hc, h3] at h
      · simp [getImage, h1, h2, hc]

/-- Helper: in the URL branch a failed fetch always surfaces as the emptiness error,
never as the error of `getImage`. -/
theorem getAvatarBase64_fetch_error (w : World) (avatar e : String)
    (hurl : isAbsoluteURL w avatar = true) (h : (getImage w avatar).1.2 = some e) :
    (getAvatarBase64 w avatar).1 = ("", "", some "image file was empty") := by
  have hnil := getImage_error_nil w avatar e h
  unfold getAvatarBase64
  rw [if_pos hurl]
  rcases hg : getImage w avatar with ⟨⟨img, err⟩, t⟩
  rw [hg] at hnil
  simp only at hnil
  subst hnil
  simp [encodeImage]

/-- C2 (code evaluated at the failing input): the avatar source is an absolute URL and the
server answers `404 Not Found`.  `getImage` returns the error that carries the status
text, but `getAvatarBase64` returns the error `image file was empty`; the message on
standard error does not contain the status text.  No confirmation is printed. -/
theorem getAvatarBase64_drops_fetch_error :
    isAbsoluteURL notFoundWorld "https://example.com/a.png" = true ∧
      (getImage notFoundWorld "https://example.com/a.png").1 =
        ([], some "image server responded with non-200 error: 404 Not Found") ∧
      (getAvatarBase64 notFoundWorld "https://example.com/a.png").1 =
        ("", "", some "image file was empty") ∧
      (run notFoundWorld [] "https://example.com/a.png").2 = 1 ∧
      stderrOf (run notFoundWorld [] "https://example.com/a.png").1 =
        "error reading avatar: image file was empty\n" ∧
      ¬Contains (stderrOf (run notFoundWorld [] "https://example.com/a.png").1)
        "404 Not Found" ∧
      stdoutOf (run notFoundWorld [] "https://example.com/a.png").1 = "" := by
  decide

/-- Helper: the allowed types are exactly `image/png` and `image/jpeg`. -/
theorem isMimeTypeAllowed_iff (m : String) :
    isMimeTypeAllowed m = true ↔ m = "image/png" ∨ m = "image/jpeg" := by
  simp only [isMimeTypeAllowed, ALLOWED_AVATAR_MIME_TYPES, List.any_cons, List.any_nil,
    Bool.or_false, Bool.or_eq_true, decide_eq_true_eq]
  exact ⟨fun h => h.imp Eq.symm Eq.symm, fun h => h.imp Eq.symm Eq.symm⟩

/-- Helper: the events of `getImage` are the construction of the request and, when
that succeeds, its dispatch. -/
theorem getImage_trace (w : World) (url : String) :
    (getImage w url).2 =
      if w.NewRequest "GET" url = none then
        [Event.NewRequest "GET" url, Event.Do ⟨"GET", url, [], ""⟩]
      else [Event.NewRequest "GET" url] := by
  cases h1 : w.NewRequest "GET" url with
  | some err => simp [getImage, h1]
  | none =>
    cases h2 : w.Do ⟨"GET", url, [], ""⟩ with
    | error err => simp [getImage, h1, h2]
    | ok res =>
      by_cases hc : res.StatusCode = 200
      · cases h3 : res.Body with
        | error err => simp [getImage, h1, h2, hc, h3]
        | ok bdy => simp [getImage, h1, h2, hc, h3]
      · simp [getImage, h1, h2, hc]

/-- Helper: the events before the emptiness check: those of `getImage` in the URL
branch, the stat and the read in the file branch. -/
theorem getAvatarBase64_resolved (w : World) (avatar : String) (img : List Byte)
    (hres : Resolves w avatar img) :
    getAvatarBase64 w avatar =
      ((encodeImage img).1,
        (if isAbsoluteURL w avatar then (getImage w avatar).2
          else [Event.Stat avatar, Event.ReadFile avatar]) ++ (encodeImage img).2) := by
  unfold Resolves at hres
  unfold getAvatarBase64
  by_cases hurl : isAbsoluteURL w avatar = true
  · rw [if_pos hurl] at hres
    rw [if_pos hurl, if_pos hurl]
    rcases hg : getImage w avatar with ⟨⟨img', err⟩, t⟩
    rw [hg] at hres
    simp only [Prod.mk.injEq] at hres
    obtain ⟨rfl, rfl⟩ := hres
    rfl
  · rw [if_neg hurl] at hres
    rw [if_neg hurl, if_neg hurl]
    obtain ⟨h1, h2⟩ := hres
    rw [h1, h2]
    rfl

/-- C3: when the source resolves to a non-empty byte sequence, `getAvatarBase64`
succeeds exactly when the sniffed content type is `image/png` or `image/jpeg`; for
every other sniffed type it returns the error `mime type <type> not allowed` with
empty payload and empty MIME type. -/
theorem getAvatarBase64_mime_gate (w : World) (avatar : String) (img : List Byte)
    (hres : Resolves w avatar img) (hne : img ≠ []) :
    ((getAvatarBase64 w avatar).1.2.2 = none ↔
        DetectContentType img = "image/png" ∨ DetectContentType img = "image/jpeg") ∧
      (¬(DetectContentType img = "image/png" ∨ DetectContentType img = "image/jpeg") →
        (getAvatarBase64 w avatar).1 =
          ("", "", some ("mime type " ++ DetectContentType img ++ " not allowed"))) := by
  rw [getAvatarBase64_resolved w avatar img hres]
  have hlen : img.length ≠ 0 := by
    simpa [List.length_eq_zero] using hne
  by_cases hm : isMimeTypeAllowed (DetectContentType img) = true
  · have hm' := (isMimeTypeAllowed_iff _).1 hm
    simp [encodeImage, hlen, hm, hm']
  · have hm' : ¬(DetectContentType img = "image/png" ∨ DetectContentType img = "image/jpeg") :=
      fun h => hm ((isMimeTypeAllowed_iff _).2 h)
    simp [encodeImage, hlen, hm, hm']

/-- Witness for C3: the file `a.gif` is sniffed as `image/gif` and rejected; the files
`a.jpg` and `a.png` are sniffed as `image/jpeg` and `image/png` and accepted. -/
theorem getAvatarBase64_mime_gate_witness :
    DetectContentType (ascii "GIF89a" ++ [1, 0, 1, 0]) = "image/gif" ∧
      (getAvatarBase64 filesWorld "a.gif").1 = ("", "", some "mime type image/gif not allowed") ∧
      (getAvatarBase64 filesWorld "a.jpg").1 = ("/9j/4AAQ", "image/jpeg", none) ∧
      (getAvatarBase64 filesWorld "a.png").1 = ("iVBORw0KGgoAAA==", "image/png", none) ∧
      (((getAvatarBase64 filesWorld "a.gif").1.2.2 = none ↔
        DetectContentType (ascii "GIF89a" ++ [1, 0, 1, 0]) = "image/png" ∨
          DetectContentType (ascii "GIF89a" ++ [1, 0, 1, 0]) = "image/jpeg") ∧
      (¬(DetectContentType (ascii "GIF89a" ++ [1, 0, 1, 0]) = "image/png" ∨
          DetectContentType (ascii "GIF89a" ++ [1, 0, 1, 0]) = "image/jpeg") →
        (getAvatarBase64 filesWorld "a.gif").1 =
          ("", "", some ("mime type " ++ DetectContentType (ascii "GIF89a" ++ [1, 0, 1, 0]) ++
            " not allowed")))) :=
  ⟨by decide, by decide, by decide, by decide,
    getAvatarBase64_mime_gate filesWorld "a.gif" (ascii "GIF89a" ++ [1, 0, 1, 0])
      (by decide) (by decide)⟩

/-- C4: when the file read or the HTTP fetch succeeds with zero bytes,
`getAvatarBase64` returns the error `image file was empty` with empty payload and
empty MIME type, and its events contain neither a content-type detection nor a
base64 encoding. -/
theorem getAvatarBase64_empty (w : World) (avatar : String) (hres : Resolves w avatar []) :
    (getAvatarBase64 w avatar).1 = ("", "", some "image file was empty") ∧
      ∀ e ∈ (getAvatarBase64 w avatar).2,
        (∀ d, e ≠ Event.DetectContentType d) ∧ (∀ d, e ≠ Event.EncodeToString d) := by
  rw [getAvatarBase64_resolved w avatar [] hres]
  refine ⟨by simp [encodeImage], ?_⟩
  intro e he
  simp only [encodeImage, List.length_nil, if_true, List.append_nil] at he
  split_ifs at he with hurl
  · rw [getImage_trace] at he
    split_ifs at he
    · simp only [List.mem_cons, List.mem_singleton, List.not_mem_nil, or_false] at he
      rcases he with rfl | rfl <;> simp
    · simp only [List.mem_singleton] at he
      subst he
      simp
  · simp only [List.mem_cons, List.mem_singleton, List.not_mem_nil, or_false] at he
    rcases he with rfl | rfl <;> simp

/-- Witness for C4: the empty file `empty.png`. -/
theorem getAvatarBase64_empty_witness :
    Resolves filesWorld "empty.png" [] ∧
      ((getAvatarBase64 filesWorld "empty.png").1 = ("", "", some "image file was empty") ∧
        ∀ e ∈ (getAvatarBase64 filesWorld "empty.png").2,
          (∀ d, e ≠ Event.DetectContentType d) ∧ (∀ d, e ≠ Event.EncodeToString d)) ∧
      Resolves emptyBodyWorld "https://example.com/empty.png" [] ∧
      (getAvatarBase64 emptyBodyWorld "https://example.com/empty.png").1 =
        ("", "", some "image file was empty") :=
  ⟨by decide, getAvatarBase64_empty filesWorld "empty.png" (by decide), by decide, by decide⟩

/-- Helper: the events of the common tail are the two pure library calls. -/
theorem encodeImage_events (img : List Byte) :
    ∀ e ∈ (encodeImage img).2,
      e = Event.DetectContentType img ∨ e = Event.EncodeToString img := by
  intro e he
  unfold encodeImage at he
  by_cases h0 : img.length = 0
  · simp [h0] at he
  · by_cases hm : isMimeTypeAllowed (DetectContentType img) = true
    · simpa only [h0, hm, if_false, Bool.not_true, Bool.false_eq_true, List.mem_cons,
        List.mem_singleton, List.not_mem_nil, or_false] using he
    · simp only [Bool.not_eq_true] at hm
      simp only [h0, hm, if_false, Bool.not_false, if_true, List.mem_singleton] at he
      exact Or.inl he

/-- Helper: the events of the common tail touch neither network nor file system. -/
theorem encodeImage_trace (img : List Byte) :
    ∀ e ∈ (encodeImage img).2, e.isNetwork = false ∧ e.isFile = false ∧
      (∀ m u, e ≠ Event.NewRequest m u) := by
  intro e he
  rcases encodeImage_events img e he with rfl | rfl <;> simp [Event.isNetwork, Event.isFile]

/-- Helper: the events of `getAvatarBase64` in the URL branch. -/
theorem getAvatarBase64_trace_url (w : World) (avatar : String)
    (hurl : isAbsoluteURL w avatar = true) :
    (getAvatarBase64 w avatar).2 =
      (getImage w avatar).2 ++ (encodeImage (getImage w avatar).1.1).2 := by
  unfold getAvatarBase64
  rw [if_pos hurl]

/-- Helper: the events of `getAvatarBase64` in the file branch. -/
theorem getAvatarBase64_trace_file (w : World) (avatar : String)
    (hurl : isAbsoluteURL w avatar = false) :
    ∃ t, (getAvatarBase64 w avatar).2 = Event.Stat avatar :: t ∧
      (w.Stat avatar = none → Event.ReadFile avatar ∈ t) ∧
      ∀ e ∈ t, e.isNetwork = false ∧ ∀ m u, e ≠ Event.NewRequest m u := by
  unfold getAvatarBase64
  rw [hurl]
  simp only [Bool.false_eq_true, if_false]
  cases h1 : w.Stat avatar with
  | some err => exact ⟨[], rfl, by simp, by simp⟩
  | none =>
    cases h2 : w.ReadFile avatar with
    | error err =>
      exact ⟨[Event.ReadFile avatar], rfl, by simp, by simp [Event.isNetwork]⟩
    | ok img =>
      refine ⟨Event.ReadFile avatar :: (encodeImage img).2, rfl, by simp, ?_⟩
      intro e he
      rcases List.mem_cons.1 he with rfl | he
      · simp [Event.isNetwork]
      · exact ⟨(encodeImage_trace img e he).1, (encodeImage_trace img e he).2.2⟩

/-- C10: `getAvatarBase64` enters the HTTP fetch exactly when the source parses as a
request URI with non-empty scheme and non-empty host, and otherwise enters the
local stat and read; the request goes out once it has been built, the file is read
once the stat has succeeded; no call has both a network event and a file event.
With the parser's answers for `https://example.com/a.png` and `./a.png`, the first
selects the fetch and the second the local read. -/
theorem getAvatarBase64_branch :
    (∀ (w : World) (avatar : String),
      (isAbsoluteURL w avatar = true ↔
        ∃ u, w.ParseRequestURI avatar = .ok u ∧ u.Scheme ≠ "" ∧ u.Host ≠ "") ∧
      (Event.NewRequest "GET" avatar ∈ (getAvatarBase64 w avatar).2 ↔
        isAbsoluteURL w avatar = true) ∧
      (Event.Stat avatar ∈ (getAvatarBase64 w avatar).2 ↔ isAbsoluteURL w avatar = false) ∧
      (isAbsoluteURL w avatar = true → w.NewRequest "GET" avatar = none →
        Event.Do ⟨"GET", avatar, [], ""⟩ ∈ (getAvatarBase64 w avatar).2) ∧
      (isAbsoluteURL w avatar = false → w.Stat avatar = none →
        Event.ReadFile avatar ∈ (getAvatarBase64 w avatar).2) ∧
      ((∃ e ∈ (getAvatarBase64 w avatar).2, e.isNetwork = true) →
        isAbsoluteURL w avatar = true) ∧
      ((∃ e ∈ (getAvatarBase64 w avatar).2, e.isFile = true) →
        isAbsoluteURL w avatar = false) ∧
      ¬((∃ e ∈ (getAvatarBase64 w avatar).2, e.isNetwork = true) ∧
        (∃ e ∈ (getAvatarBase64 w avatar).2, e.isFile = true))) ∧
    (∀ w : World, w.ParseRequestURI "https://example.com/a.png" = .ok ⟨"https", "example.com"⟩ →
      Event.NewRequest "GET" "https://example.com/a.png" ∈
          (getAvatarBase64 w "https://example.com/a.png").2 ∧
        ∀ e ∈ (getAvatarBase64 w "https://example.com/a.png").2, e.isFile = false) ∧
    (∀ (w : World) (err : String), w.ParseRequestURI "./a.png" = .error err →
      Event.Stat "./a.png" ∈ (getAvatarBase64 w "./a.png").2 ∧
        ∀ e ∈ (getAvatarBase64 w "./a.png").2, e.isNetwork = false) := by
  have hgen : ∀ (w : World) (avatar : String),
      (isAbsoluteURL w avatar = true →
        Event.NewRequest "GET" avatar ∈ (getAvatarBase64 w avatar).2 ∧
        (w.NewRequest "GET" avatar = none →
          Event.Do ⟨"GET", avatar, [], ""⟩ ∈ (getAvatarBase64 w avatar).2) ∧
        ∀ e ∈ (getAvatarBase64 w avatar).2, e.isFile = false) ∧
      (isAbsoluteURL w avatar = false →
        Event.Stat avatar ∈ (getAvatarBase64 w avatar).2 ∧
        (w.Stat avatar = none → Event.ReadFile avatar ∈ (getAvatarBase64 w avatar).2) ∧
        (∀ e ∈ (getAvatarBase64 w avatar).2, e.isNetwork = false) ∧
        Event.NewRequest "GET" avatar ∉ (getAvatarBase64 w avatar).2) := by
    intro w avatar
    constructor
    · intro hurl
      rw [getAvatarBase64_trace_url w avatar hurl, getImage_trace]
      refine ⟨?_, ?_, ?_⟩
      · split_ifs <;> simp
      · intro h; simp [h]
      · intro e he
        rcases List.mem_append.1 he with he | he
        · split_ifs at he
          · simp only [List.mem_cons, List.mem_singleton, List.not_mem_nil, or_false] at he
            rcases he with rfl | rfl <;> rfl
          · simp only [List.mem_singleton] at he
            subst he; rfl
        · exact (encodeImage_trace _ e he).2.1
    · intro hurl
      obtain ⟨t, ht, hread, hall⟩ := getAvatarBase64_trace_file w avatar hurl
      rw [ht]
      refine ⟨by simp, fun h => List.mem_cons_of_mem _ (hread h), ?_, ?_⟩
      · intro e he
        rcases List.mem_cons.1 he with rfl | he
        · rfl
        · exact (hall e he).1
      · intro he
        rcases List.mem_cons.1 he with h | he
        · cases h
        · exact (hall _ he).2 _ _ rfl
  have hcond : ∀ (w : World) (avatar : String), isAbsoluteURL w avatar = true ↔
      ∃ u, w.ParseRequestURI avatar = .ok u ∧ u.Scheme ≠ "" ∧ u.Host ≠ "" := by
    intro w avatar
    unfold isAbsoluteURL
    cases h : w.ParseRequestURI avatar with
    | error e => simp
    | ok u => simp
  refine ⟨?_, ?_, ?_⟩
  · intro w avatar
    obtain ⟨h1, h2⟩ := hgen w avatar
    refine ⟨hcond w avatar, ?_, ?_, fun h => (h1 h).2.1, fun h => (h2 h).2.1, ?_, ?_, ?_⟩
    · constructor
      · intro hmem
        by_contra hn
        exact (h2 (by simpa using hn)).2.2.2 hmem
      · exact fun h => (h1 h).1
    · constructor
      · intro hmem
        by_contra hn
        have hf := (h1 (by simpa using hn)).2.2 _ hmem
        simp [Event.isFile] at hf
      · exact fun h => (h2 h).1
    · rintro ⟨e, he, hnet⟩
      by_contra hn
      have := (h2 (by simpa using hn)).2.2.1 e he
      rw [this] at hnet
      cases hnet
    · rintro ⟨e, he, hfile⟩
      by_contra hn
      have := (h1 (by simpa using hn)).2.2 e he
      rw [this] at hfile
      cases hfile
    · rintro ⟨⟨e, he, hnet⟩, ⟨e', he', hfile⟩⟩
      cases hurl : isAbsoluteURL w avatar with
      | true =>
        have := (h1 hurl).2.2 e' he'
        rw [this] at hfile
        cases hfile
      | false =>
        have := (h2 hurl).2.2.1 e he
        rw [this] at hnet
        cases hnet
  · intro w hp
    have hurl : isAbsoluteURL w "https://example.com/a.png" = true :=
      (hcond _ _).2 ⟨_, hp, by decide, by decide⟩
    exact ⟨((hgen _ _).1 hurl).1, ((hgen _ _).1 hurl).2.2⟩
  · intro w err hp
    have hurl : isAbsoluteURL w "./a.png" = false := by
      simp [isAbsoluteURL, hp]
    exact ⟨((hgen _ _).2 hurl).1, ((hgen _ _).2 hurl).2.2.1⟩

/-- Witness for C10: in `branchWorld` the URL is fetched over the network and the
path is read from the file system. -/
theorem getAvatarBase64_branch_witness :
    (getAvatarBase64 branchWorld "https://example.com/a.png").2 =
        [Event.NewRequest "GET" "https://example.com/a.png",
          Event.Do ⟨"GET", "https://example.com/a.png", [], ""⟩,
          Event.DetectContentType [0x89, 0x50, 0x4E, 0x47, 0x0D, 0x0A, 0x1A, 0x0A, 0, 0],
          Event.EncodeToString [0x89, 0x50, 0x4E, 0x47, 0x0D, 0x0A, 0x1A, 0x0A, 0, 0]] ∧
      (getAvatarBase64 branchWorld "./a.png").2 =
        [Event.Stat "./a.png", Event.ReadFile "./a.png",
          Event.DetectContentType [0x89, 0x50, 0x4E, 0x47, 0x0D, 0x0A, 0x1A, 0x0A, 0, 0],
          Event.EncodeToString [0x89, 0x50, 0x4E, 0x47, 0x0D, 0x0A, 0x1A, 0x0A, 0, 0]] ∧
      (Event.NewRequest "GET" "https://example.com/a.png" ∈
          (getAvatarBase64 branchWorld "https://example.com/a.png").2 ∧
        ∀ e ∈ (getAvatarBase64 branchWorld "https://example.com/a.png").2, e.isFile = false) ∧
      (Event.Stat "./a.png" ∈ (getAvatarBase64 branchWorld "./a.png").2 ∧
        ∀ e ∈ (getAvatarBase64 branchWorld "./a.png").2, e.isNetwork = false) :=
  ⟨by decide, by decide,
    getAvatarBase64_branch.2.1 branchWorld (by decide),
    getAvatarBase64_branch.2.2 branchWorld "invalid URI for request" (by decide)⟩

/-- Helper: a data URI is never the empty string. -/
theorem dataURI_ne_empty (mime b64 : String) :
    utf8 ("data:" ++ mime ++ ";base64," ++ b64) ≠ [] := by
  intro h
  have h' := (utf8_eq_nil _).1 h
  have := congrArg String.length h'
  simp only [String.length_append] at this
  have h5 : "data:".length = 5 := rfl
  have h0 : "".length = 0 := rfl
  omega

/-- Helper: the events of `modifyUser`: the request is built and, when that succeeds,
sent with the serialized payload as its body. -/
theorem modifyUser_trace (w : World) (token : String) (pl : ModifyCurrentUser) :
    (modifyUser w token pl).2 =
      if w.NewRequest "PATCH" "https://discord.com/api/v10/users/@me" = none then
        [Event.NewRequest "PATCH" "https://discord.com/api/v10/users/@me",
          Event.Do (patchRequest token (renderObject (members pl) ++ "\n"))]
      else [Event.NewRequest "PATCH" "https://discord.com/api/v10/users/@me"] := by
  cases h1 : w.NewRequest "PATCH" "https://discord.com/api/v10/users/@me" with
  | some err => simp [modifyUser, jsonEncode, h1]
  | none =>
    cases h2 : w.Do (patchRequest token (renderObject (members pl) ++ "\n")) with
    | error err => simp [modifyUser, jsonEncode, h1, h2]
    | ok res =>
      by_cases hc : res.StatusCode = 200
      · cases h3 : w.DecodeUser res with
        | error err => simp [modifyUser, jsonEncode, h1, h2, hc, h3]
        | ok u => simp [modifyUser, jsonEncode, h1, h2, hc, h3]
      · simp [modifyUser, jsonEncode, h1, h2, hc]

/-- Helper: `main` is `buildPatch` followed by `submit`. -/
theorem main_of_buildPatch (w : World) (username : GoString) (avatar tkn : String) (t : List Event)
    (patch : ModifyCurrentUser) (h : buildPatch w username avatar = (t, .ok (tkn, patch))) :
    main w username avatar = (t ++ (submit w tkn patch).1, (submit w tkn patch).2) := by
  unfold main
  rw [h]

/-- Helper: standard output of two traces in sequence. -/
theorem stdoutOf_append (a b : List Event) : stdoutOf (a ++ b) = stdoutOf a ++ stdoutOf b := by
  induction a with
  | nil => simp [stdoutOf]
  | cons e a ih => cases e <;> simp [stdoutOf, ih, String.append_assoc]

/-- Helper: standard error of two traces in sequence. -/
theorem stderrOf_append (a b : List Event) : stderrOf (a ++ b) = stderrOf a ++ stderrOf b := by
  induction a with
  | nil => simp [stderrOf]
  | cons e a ih => cases e <;> simp [stderrOf, ih, String.append_assoc]

/-- Helper: a trace whose events are neither output events writes nothing. -/
theorem silent_of_forall (t : List Event)
    (h : ∀ e ∈ t, (∀ s, e ≠ Event.Stdout s) ∧ ∀ s, e ≠ Event.Stderr s) :
    stdoutOf t = "" ∧ stderrOf t = "" := by
  induction t with
  | nil => exact ⟨rfl, rfl⟩
  | cons e t ih =>
    have he := h e (List.mem_cons_self _ _)
    have ih := ih fun e' he' => h e' (List.mem_cons_of_mem _ he')
    cases e <;> first
      | exact absurd rfl (he.1 _)
      | exact absurd rfl (he.2 _)
      | simpa [stdoutOf, stderrOf] using ih

/-- Helper: `getAvatarBase64` writes nothing to standard output or standard error. -/
theorem getAvatarBase64_silent (w : World) (avatar : String) :
    stdoutOf (getAvatarBase64 w avatar).2 = "" ∧ stderrOf (getAvatarBase64 w avatar).2 = "" := by
  apply silent_of_forall
  intro e he
  cases hurl : isAbsoluteURL w avatar with
  | true =>
    rw [getAvatarBase64_trace_url w avatar hurl, getImage_trace] at he
    rcases List.mem_append.1 he with he | he
    · split_ifs at he
      · simp only [List.mem_cons, List.mem_singleton, List.not_mem_nil, or_false] at he
        rcases he with rfl | rfl <;> simp
      · simp only [List.mem_singleton] at he
        subst he; simp
    · rcases encodeImage_events _ e he with rfl | rfl <;> simp
  | false =>
    unfold getAvatarBase64 at he
    rw [hurl] at he
    simp only [Bool.false_eq_true, if_false] at he
    cases h1 : w.Stat avatar with
    | some err =>
      simp only [h1, List.mem_singleton] at he
      subst he; simp
    | none =>
      cases h2 : w.ReadFile avatar with
      | error err =>
        simp only [h1, h2, List.mem_cons, List.mem_singleton, List.not_mem_nil, or_false] at he
        rcases he with rfl | rfl <;> simp
      | ok img =>
        simp only [h1, h2, List.mem_cons] at he
        rcases he with rfl | rfl | he
        · simp
        · simp
        · rcases encodeImage_events _ e he with rfl | rfl <;> simp

/-- Helper: what `getToken` writes: nothing on standard error; on standard output
nothing, or the prompt and a newline when the token is read from the terminal. -/
theorem getToken_output (w : World) :
    stderrOf (getToken w).2 = "" ∧
      (stdoutOf (getToken w).2 = "" ∨
        stdoutOf (getToken w).2 = "Bot Token (imput feedback is NOT shown) >> \n") ∧
      (w.LookupEnv "DISCORD_TOKEN" ≠ none → stdoutOf (getToken w).2 = "") ∧
      (∀ s, Event.Stdout s ∈ (getToken w).2 →
        s = "Bot Token (imput feedback is NOT shown) >> " ∨ s = "\n") := by
  unfold getToken isTTY
  cases h1 : w.LookupEnv "DISCORD_TOKEN" with
  | some tk => simp [stdoutOf, stderrOf]
  | none =>
    cases h2 : w.StdoutCharDevice with
    | none => simp [stdoutOf, stderrOf]
    | some b =>
      cases b with
      | false => simp [stdoutOf, stderrOf]
      | true =>
        have hlit : "Bot Token (imput feedback is NOT shown) >> " ++ ("\n" ++ "") =
            "Bot Token (imput feedback is NOT shown) >> \n" := by decide
        cases h3 : w.ReadPassword with
        | error e => simp [stdoutOf, stderrOf, hlit]
        | ok tk => simp [stdoutOf, stderrOf, hlit]

/-- Helper: when `buildPatch` continues, the token is not empty, the payload carries
the requested username, its avatar field is non-empty exactly when an avatar was
requested, and so far only `getToken` has written anything. -/
theorem buildPatch_ok (w : World) (username : GoString) (avatar tkn : String) (t : List Event)
    (patch : ModifyCurrentUser) (h : buildPatch w username avatar = (t, .ok (tkn, patch))) :
    tkn ≠ "" ∧ patch.Username = username ∧ (patch.Avatar ≠ [] ↔ avatar ≠ "") ∧
      stdoutOf t = stdoutOf (getToken w).2 ∧ stderrOf t = "" := by
  unfold buildPatch at h
  rcases hg : getToken w with ⟨tk, t0⟩
  rw [hg] at h
  have hout := getToken_output w
  rw [hg] at hout
  cases tk with
  | none => simp at h
  | some tk =>
    simp only at h
    by_cases h1 : tk = ""
    · simp [h1] at h
    · by_cases h2 : avatar = ""
      · simp only [h1, if_false, h2, ne_eq, not_true_eq_false, Prod.mk.injEq,
          Except.ok.injEq] at h
        obtain ⟨rfl, rfl, rfl⟩ := h
        exact ⟨h1, rfl, by simp [h2], rfl, hout.1⟩
      · rcases ha : getAvatarBase64 w avatar with ⟨⟨b64, mime, err⟩, ta⟩
        have hs := getAvatarBase64_silent w avatar
        rw [ha] at hs
        cases err with
        | some e => simp [h1, h2, ha] at h
        | none =>
          simp only [h1, if_false, h2, ne_eq, not_false_eq_true, if_true, ha, Prod.mk.injEq,
            Except.ok.injEq] at h
          obtain ⟨rfl, rfl, rfl⟩ := h
          refine ⟨h1, rfl, ?_, ?_, ?_⟩
          · simp [h2, dataURI_ne_empty]
          · rw [stdoutOf_append, hs.1]; simp
          · rw [stderrOf_append, hs.2, hout.1]; rfl

/-- Helper: `modifyUser` returns a user only for a response with status 200 whose body
decodes to that user. -/
theorem modifyUser_ok (w : World) (token : String) (pl : ModifyCurrentUser) (u : User)
    (h : (modifyUser w token pl).1 = .ok u) :
    w.NewRequest "PATCH" "https://discord.com/api/v10/users/@me" = none ∧
      ∃ res, w.Do (patchRequest token (renderObject (members pl) ++ "\n")) = .ok res ∧
        res.StatusCode = 200 ∧ w.DecodeUser res = .ok u := by
  cases h1 : w.NewRequest "PATCH" "https://discord.com/api/v10/users/@me" with
  | some err => simp [modifyUser, jsonEncode, h1] at h
  | none =>
    cases h2 : w.Do (patchRequest token (renderObject (members pl) ++ "\n")) with
    | error err => simp [modifyUser, jsonEncode, h1, h2] at h
    | ok res =>
      by_cases hc : res.StatusCode = 200
      · cases h3 : w.DecodeUser res with
        | error err => simp [modifyUser, jsonEncode, h1, h2, hc, h3] at h
        | ok u' =>
          simp only [modifyUser, jsonEncode, h1, h2, hc, h3, ne_eq, not_true_eq_false,
            if_false, Except.ok.injEq] at h
          exact ⟨rfl, res, rfl, hc, by rw [← h]; exact h3⟩
      · simp [modifyUser, jsonEncode, h1, h2, hc] at h

/-- Helper: the result of `modifyUser` for a response whose status is not 200. -/
theorem modifyUser_status (w : World) (token : String) (pl : ModifyCurrentUser)
    (res : Response)
    (hreq : w.NewRequest "PATCH" "https://discord.com/api/v10/users/@me" = none)
    (hdo : w.Do (patchRequest token (renderObject (members pl) ++ "\n")) = .ok res)
    (hcode : res.StatusCode ≠ 200) :
    modifyUser w token pl =
      (.error ("discord responded with non-200 status: " ++ res.Status),
        [Event.NewRequest "PATCH" "https://discord.com/api/v10/users/@me",
          Event.Do (patchRequest token (renderObject (members pl) ++ "\n"))]) := by
  simp [modifyUser, jsonEncode, hreq, hdo, hcode]

/-- Helper: the encodings of characters of one to four bytes, and byte sequences
that the decoder rejects: a stray continuation byte, an overlong form, a surrogate,
a value above U+10FFFF and a truncated encoding. -/
theorem utf8_examples :
    utf8 "A" = [0x41] ∧ utf8 "é" = [0xC3, 0xA9] ∧ utf8 "€" = [0xE2, 0x82, 0xAC] ∧
      utf8 "😀" = [0xF0, 0x9F, 0x98, 0x80] ∧
      decodeRunes [0x41, 0xC3, 0xA9, 0xE2, 0x82, 0xAC, 0xF0, 0x9F, 0x98, 0x80] =
        [some 'A', some 'é', some '€', some '😀'] ∧
      decodeRunes [0x80] = [none] ∧
      decodeRunes [0xC0, 0x80] = [none, none] ∧
      decodeRunes [0xED, 0xA0, 0x80] = [none, none, none] ∧
      decodeRunes [0xF4, 0x90, 0x80, 0x80] = [none, none, none, none] ∧
      decodeRunes [0xE2, 0x82] = [none, none] ∧
      decodeRunes [0xEF, 0xBF, 0xBD] = [some (Char.ofNat 0xFFFD)] := by
  decide

/-- Helper: the values a character can take. -/
theorem char_valid (c : Char) : c.toNat < 0xD800 ∨ (0xDFFF < c.toNat ∧ c.toNat < 0x110000) := by
  have h := c.valid
  simpa [UInt32.isValidChar, Nat.isValidChar, Char.toNat] using h

/-- Helper: decoding the encoding of a character gives the character and its size. -/
theorem decodeRune_encode (c : Char) (rest : List Byte) :
    decodeRune (utf8EncodeChar c ++ rest) = (some c, (utf8EncodeChar c).length) := by
  have hv := char_valid c
  have hc : ∀ n, n = c.toNat → Char.ofNat n = c := fun n h => by rw [h]; exact Char.ofNat_toNat c
  unfold utf8EncodeChar
  simp only
  split_ifs with h1 h2 h3
  · have : (byte c.toNat).val = c.toNat := by simp [byte]; omega
    simp [decodeRune, this, h1]
  · have e0 : (byte (0xC0 + c.toNat / 64)).val = 0xC0 + c.toNat / 64 := by simp [byte]; omega
    have e1 : (byte (0x80 + c.toNat % 64)).val = 0x80 + c.toNat % 64 := by simp [byte]; omega
    have g0 : ¬ (0xC0 + c.toNat / 64 < 0x80) := by omega
    have g1 : 0xC2 ≤ 0xC0 + c.toNat / 64 ∧ 0xC0 + c.toNat / 64 ≤ 0xDF := by omega
    have g2 : isCont (byte (0x80 + c.toNat % 64)) = true := by
      simp only [isCont, e1, Bool.and_eq_true, decide_eq_true_eq]; omega
    simp only [List.cons_append, List.nil_append, decodeRune, e0, e1, g0, g1, g2, if_false, if_true,
      and_self, List.length_cons, List.length_nil]
    congr 2
    apply hc; omega
  · have e0 : (byte (0xE0 + c.toNat / 4096)).val = 0xE0 + c.toNat / 4096 := by
      simp [byte]; omega
    have e1 : (byte (0x80 + c.toNat / 64 % 64)).val = 0x80 + c.toNat / 64 % 64 := by
      simp [byte]; omega
    have e2 : (byte (0x80 + c.toNat % 64)).val = 0x80 + c.toNat % 64 := by simp [byte]; omega
    have g0 : ¬ (0xE0 + c.toNat / 4096 < 0x80) := by omega
    have g1 : ¬ (0xC2 ≤ 0xE0 + c.toNat / 4096 ∧ 0xE0 + c.toNat / 4096 ≤ 0xDF) := by omega
    have g2 : 0xE0 ≤ 0xE0 + c.toNat / 4096 ∧ 0xE0 + c.toNat / 4096 ≤ 0xEF := by omega
    have g3 : isCont (byte (0x80 + c.toNat % 64)) = true := by
      simp only [isCont, e2, Bool.and_eq_true, decide_eq_true_eq]; omega
    have g4 : (if 0xE0 + c.toNat / 4096 = 0xE0 then 0xA0 else 0x80) ≤ 0x80 + c.toNat / 64 % 64 ∧
        0x80 + c.toNat / 64 % 64 ≤ (if 0xE0 + c.toNat / 4096 = 0xED then 0x9F else 0xBF) := by
      split_ifs <;> omega
    simp only [List.cons_append, List.nil_append, decodeRune, e0, e1, e2, g0, g1, g2, g3, g4,
      if_false, if_true, and_self, and_true, List.length_cons, List.length_nil]
    congr 2
    apply hc; omega
  · have e0 : (byte (0xF0 + c.toNat / 262144)).val = 0xF0 + c.toNat / 262144 := by
      simp [byte]; omega
    have e1 : (byte (0x80 + c.toNat / 4096 % 64)).val = 0x80 + c.toNat / 4096 % 64 := by
      simp [byte]; omega
    have e2 : (byte (0x80 + c.toNat / 64 % 64)).val = 0x80 + c.toNat / 64 % 64 := by
      simp [byte]; omega
    have e3 : (byte (0x80 + c.toNat % 64)).val = 0x80 + c.toNat % 64 := by simp [byte]; omega
    have g0 : ¬ (0xF0 + c.toNat / 262144 < 0x80) := by omega
    have g1 : ¬ (0xC2 ≤ 0xF0 + c.toNat / 262144 ∧ 0xF0 + c.toNat / 262144 ≤ 0xDF) := by omega
    have g2 : ¬ (0xE0 ≤ 0xF0 + c.toNat / 262144 ∧ 0xF0 + c.toNat / 262144 ≤ 0xEF) := by omega
    have g2' : 0xF0 ≤ 0xF0 + c.toNat / 262144 ∧ 0xF0 + c.toNat / 262144 ≤ 0xF4 := by omega
    have g3 : isCont (byte (0x80 + c.toNat / 64 % 64)) = true := by
      simp only [isCont, e2, Bool.and_eq_true, decide_eq_true_eq]; omega
    have g3' : isCont (byte (0x80 + c.toNat % 64)) = true := by
      simp only [isCont, e3, Bool.and_eq_true, decide_eq_true_eq]; omega
    have g4 : (if 0xF0 + c.toNat / 262144 = 0xF0 then 0x90 else 0x80) ≤
          0x80 + c.toNat / 4096 % 64 ∧
        0x80 + c.toNat / 4096 % 64 ≤ (if 0xF0 + c.toNat / 262144 = 0xF4 then 0x8F else 0xBF) := by
      split_ifs <;> omega
    simp only [List.cons_append, List.nil_append, decodeRune, e0, e1, e2, e3, g0, g1, g2, g2', g3,
      g3', g4, if_false, if_true, and_self, and_true, List.length_cons, List.length_nil]
    congr 2
    apply hc; omega

/-- Helper: the walk over the empty string. -/
theorem decodeRunesAux_nil (n : Nat) : decodeRunesAux n [] = [] := by
  cases n <;> rfl

/-- Helper: the walk over the encoding of a text yields its characters. -/
theorem decodeRunesAux_utf8 (cs : List Char) (rest : List Byte) (n : Nat)
    (hn : cs.length ≤ n) :
    decodeRunesAux (n + rest.length) (cs.flatMap utf8EncodeChar ++ rest) =
      cs.map some ++ decodeRunesAux (n - cs.length + rest.length) rest := by
  induction cs generalizing n with
  | nil => simp
  | cons c cs ih =>
    obtain ⟨m, rfl⟩ : ∃ m, n = m + 1 := ⟨n - 1, by simp at hn; omega⟩
    have hpos := utf8EncodeChar_length_pos c
    obtain ⟨b, bs, hb⟩ : ∃ b bs, utf8EncodeChar c = b :: bs := by
      cases h : utf8EncodeChar c with
      | nil => simp [h] at hpos
      | cons b bs => exact ⟨b, bs, rfl⟩
    have hdec := decodeRune_encode c (cs.flatMap utf8EncodeChar ++ rest)
    simp only [List.flatMap_cons, List.append_assoc]
    rw [hb] at hdec ⊢
    have hfu : m + 1 + rest.length = (m + rest.length) + 1 := by omega
    rw [hfu]
    simp only [List.cons_append] at hdec ⊢
    rw [decodeRunesAux, hdec]
    simp only [List.map_cons, List.cons_append, List.length_cons]
    have hdrop : List.drop (bs.length + 1) (b :: (bs ++ (cs.flatMap utf8EncodeChar ++ rest))) =
        cs.flatMap utf8EncodeChar ++ rest := by simp
    rw [hdrop, ih m (by simpa using hn)]
    simp

/-- Helper: an encoding has at least as many bytes as the text has characters. -/
theorem length_le_utf8 (cs : List Char) : cs.length ≤ (cs.flatMap utf8EncodeChar).length := by
  induction cs with
  | nil => simp
  | cons c cs ih =>
    have := utf8EncodeChar_length_pos c
    simp only [List.flatMap_cons, List.length_append, List.length_cons]
    omega

/-- Helper: the characters of the Go string that holds a text are those of the text. -/
theorem decodeRunes_utf8 (s : String) : decodeRunes (utf8 s) = s.data.map some := by
  unfold decodeRunes utf8
  have h := decodeRunesAux_utf8 s.data [] _ (length_le_utf8 s.data)
  simp only [List.length_nil, Nat.add_zero, List.append_nil, decodeRunesAux_nil] at h
  exact h

/-- Helper: a hexadecimal digit has its value. -/
theorem hexValue_hexDigit (k : Nat) (hk : k < 16) : hexValue (hexDigit k) = some k := by
  interval_cases k <;> decide

/-- Helper: the reader resolves what the encoder writes for a character. -/
theorem readStringAux_escapeChar (c : Char) (n : Nat) (tail s r : List Char)
    (h : readStringAux n tail = some (s, r)) :
    readStringAux (n + 1) (escapeChar c ++ tail) = some (c :: s, r) := by
  unfold escapeChar
  split_ifs with h1 h2 h3 h4 h5 h6 h7 h8
  · rcases h1 with rfl | rfl <;> simp [readStringAux, readEscape, unescapeShort, h]
  · subst h2; simp [readStringAux, readEscape, unescapeShort, h]
  · subst h3; simp [readStringAux, readEscape, unescapeShort, h]
  · subst h4; simp [readStringAux, readEscape, unescapeShort, h]
  · subst h5; simp [readStringAux, readEscape, unescapeShort, h]
  · subst h6; simp [readStringAux, readEscape, unescapeShort, h]
  · have hlt : c.toNat < 256 := by
      rcases h7 with h | rfl | rfl | rfl
      · omega
      · decide
      · decide
      · decide
    have e1 := hexValue_hexDigit (c.toNat / 16) (by omega)
    have e2 := hexValue_hexDigit (c.toNat % 16) (by omega)
    have e0 : hexValue '0' = some 0 := by decide
    have hval : Char.ofNat (c.toNat / 16 * 16 + c.toNat % 16) = c := by
      have : c.toNat / 16 * 16 + c.toNat % 16 = c.toNat := by omega
      rw [this]; exact Char.ofNat_toNat c
    simp [readStringAux, readEscape, e0, e1, e2, h, hval]
  · have e2 := hexValue_hexDigit (c.toNat % 16) (by omega)
    have e0 : hexValue '0' = some 0 := by decide
    have e2' : hexValue '2' = some 2 := by decide
    have hval : Char.ofNat (2 * 4096 + 2 * 16 + c.toNat % 16) = c := by
      have : 2 * 4096 + 2 * 16 + c.toNat % 16 = c.toNat := by omega
      rw [this]; exact Char.ofNat_toNat c
    simp [readStringAux, readEscape, e0, e2, e2', h, hval]
  · have g1 : c ≠ '"' := fun hc => h1 (Or.inr hc)
    have g2 : c ≠ '\\' := fun hc => h1 (Or.inl hc)
    have g3 : ¬ c.toNat < 0x20 := fun hc => h7 (Or.inl hc)
    simp [readStringAux, g1, g2, g3, h]


/-- Helper: the reader resolves what the encoder writes for one step. -/
theorem readStringAux_escapeRune (x : Option Char) (n : Nat) (tail s r : List Char)
    (h : readStringAux n tail = some (s, r)) :
    readStringAux (n + 1) (escapeRune x ++ tail) = some (runeValue x :: s, r) := by
  cases x with
  | some c => exact readStringAux_escapeChar c n tail s r h
  | none =>
    have e1 : hexValue 'f' = some 15 := by decide
    have e2 : hexValue 'd' = some 13 := by decide
    simp [escapeRune, runeValue, readStringAux, readEscape, e1, e2, h]

/-- Helper: the reader resolves what the encoder writes for a string, given enough
fuel. -/
theorem readStringAux_runes (runes : List (Option Char)) (k : Nat) (tail : List Char) :
    readStringAux (runes.length + 1 + k) (runes.flatMap escapeRune ++ '"' :: tail) =
      some (runes.map runeValue, tail) := by
  induction runes with
  | nil =>
    have e : ([] : List (Option Char)).length + 1 + k = k + 1 := by simp; omega
    rw [e]
    simp [readStringAux]
  | cons x runes ih =>
    have h := readStringAux_escapeRune x _ _ _ _ ih
    simp only [List.flatMap_cons, List.append_assoc, List.length_cons, List.map_cons]
    have e : runes.length + 1 + 1 + k = runes.length + 1 + k + 1 := by omega
    rw [e]
    exact h

/-- Helper: the encoder writes at least one character per step. -/
theorem escapeRune_length_pos (x : Option Char) : 0 < (escapeRune x).length := by
  cases x with
  | none => simp [escapeRune]
  | some c =>
    simp only [escapeRune, escapeChar]
    split_ifs <;> simp

/-- Helper: the written text is at least as long as the number of steps. -/
theorem length_le_escape (runes : List (Option Char)) :
    runes.length ≤ (runes.flatMap escapeRune).length := by
  induction runes with
  | nil => simp
  | cons x runes ih =>
    have := escapeRune_length_pos x
    simp only [List.flatMap_cons, List.length_append, List.length_cons]
    omega

/-- Helper: reading back the string literal the encoder writes. -/
theorem readString_runes (runes : List (Option Char)) (tail : List Char) :
    readString (runes.flatMap escapeRune ++ '"' :: tail) = some (runes.map runeValue, tail) := by
  unfold readString
  have hle := length_le_escape runes
  obtain ⟨k, hk⟩ : ∃ k, (runes.flatMap escapeRune ++ '"' :: tail).length =
      runes.length + 1 + k :=
    ⟨(runes.flatMap escapeRune).length - runes.length + tail.length, by
      simp only [List.length_append, List.length_cons]; omega⟩
  rw [hk]
  exact readStringAux_runes runes k tail

/-- Helper: a valid text is sent unchanged. -/
theorem coerceUTF8_utf8 (s : String) : coerceUTF8 (utf8 s) = s := by
  unfold coerceUTF8
  rw [decodeRunes_utf8]
  simp [runeValue, Function.comp_def]

/-- Helper: reading back one member. -/
theorem readMember_render (m : String × GoString) (tail : List Char) :
    readMember (renderMember m ++ tail) = some ((m.1, coerceUTF8 m.2), tail) := by
  have hk := coerceUTF8_utf8 m.1
  unfold coerceUTF8 at hk
  simp only [readMember, renderMember, quoteChars, List.cons_append, List.append_assoc, expect,
    if_true, readString_runes, List.nil_append, coerceUTF8, hk]

/-- Helper: reading back the members of an object. -/
theorem readMembersAux_render (ms : List (String × GoString)) (hne : ms ≠ []) (k : Nat)
    (tail : List Char) :
    readMembersAux (ms.length + k) (renderMembers ms ++ '\x7d' :: tail) =
      some (ms.map fun m => (m.1, coerceUTF8 m.2), tail) := by
  induction ms with
  | nil => exact absurd rfl hne
  | cons m ms ih =>
    cases ms with
    | nil =>
      have e : [m].length + k = k + 1 := by simp; omega
      rw [e]
      simp [readMembersAux, renderMembers, readMember_render]
    | cons m' ms =>
      have e : (m :: m' :: ms).length + k = (m' :: ms).length + k + 1 := by simp; omega
      rw [e]
      have ih' := ih (by simp)
      simp only [readMembersAux, renderMembers, List.append_assoc, List.cons_append,
        readMember_render, if_true, ih', Option.map_some', List.map_cons]


/-- Helper: the rendering of members is at least as long as their number. -/
theorem length_le_renderMembers : ∀ ms : List (String × GoString),
    ms.length ≤ (renderMembers ms).length
  | [] => by simp [renderMembers]
  | [m] => by simp [renderMembers, renderMember, quoteChars]
  | m :: m' :: ms => by
    have ih := length_le_renderMembers (m' :: ms)
    simp only [renderMembers, List.length_append, List.length_cons] at ih ⊢
    omega

/-- Helper: reading back the object the encoder writes, followed by `tail`, gives the
members with their names and the texts of their values. -/
theorem readObject_render (ms : List (String × GoString)) (tail : String) :
    readObject (renderObject ms ++ tail) =
      some (ms.map fun m => (m.1, coerceUTF8 m.2), tail) := by
  cases ms with
  | nil =>
    simp [readObject, renderObject, renderMembers, expect]
  | cons m ms =>
    have hq : ∀ t : List Char, expect '\x7d' (renderMembers (m :: ms) ++ t) = none := by
      intro t
      cases ms with
      | nil => simp [renderMembers, renderMember, quoteChars, expect]
      | cons m' ms => simp [renderMembers, renderMember, quoteChars, expect]
    have hlen := length_le_renderMembers (m :: ms)
    obtain ⟨k, hk⟩ : ∃ k, (renderMembers (m :: ms) ++ '\x7d' :: tail.data).length =
        (m :: ms).length + k :=
      ⟨(renderMembers (m :: ms)).length - (m :: ms).length + 1 + tail.data.length, by
        simp only [List.length_append, List.length_cons] at hlen ⊢; omega⟩
    have hr := readMembersAux_render (m :: ms) (by simp) k tail.data
    have hdata : (renderObject (m :: ms) ++ tail).data =
        '\x7b' :: (renderMembers (m :: ms) ++ '\x7d' :: tail.data) := by
      simp [renderObject]
    have he : ∀ t : List Char, expect '\x7b' ('\x7b' :: t) = some t := by
      intro t; simp [expect]
    simp only [readObject, hdata, he, hq, hk, hr, Option.map_some']

/-- Helper: the members of the serialized payload. -/
theorem members_eq (pl : ModifyCurrentUser) :
    members pl =
      (if pl.Username = [] then [] else [("username", pl.Username)]) ++
        (if pl.Avatar = [] then [] else [("avatar", pl.Avatar)]) := by
  unfold members
  simp only [List.length_eq_zero]

/-- C6 (as amended): the only request `modifyUser` sends has as body the JSON object
of the payload followed by a newline.  A JSON reader finds in that body the member
`username` exactly when the field `Username` is non-empty and the member `avatar`
exactly when the field `Avatar` is non-empty; the value of a member is the text of
the field in which every byte that is not part of a valid UTF-8 encoding is replaced
by U+FFFD, hence the field's value itself whenever the field is valid UTF-8.  For
`Username = "newname"` and no avatar the object is `{"username":"newname"}`. -/
theorem modifyUser_body (w : World) (token : String) (pl : ModifyCurrentUser) :
    (∀ req, Event.Do req ∈ (modifyUser w token pl).2 →
      req = patchRequest token (renderObject (members pl) ++ "\n")) ∧
    (w.NewRequest "PATCH" "https://discord.com/api/v10/users/@me" = none →
      Event.Do (patchRequest token (renderObject (members pl) ++ "\n")) ∈
        (modifyUser w token pl).2) ∧
    jsonEncode pl = .ok (renderObject (members pl) ++ "\n") ∧
    readObject (renderObject (members pl) ++ "\n") =
      some ((if pl.Username = [] then [] else [("username", coerceUTF8 pl.Username)]) ++
        (if pl.Avatar = [] then [] else [("avatar", coerceUTF8 pl.Avatar)]), "\n") ∧
    (∀ ms rest, readObject (renderObject (members pl) ++ "\n") = some (ms, rest) →
      ((∃ v, ("username", v) ∈ ms) ↔ pl.Username ≠ []) ∧
      ((∃ v, ("avatar", v) ∈ ms) ↔ pl.Avatar ≠ []) ∧
      (∀ k v, (k, v) ∈ ms →
        (k = "username" ∧ v = coerceUTF8 pl.Username) ∨
          (k = "avatar" ∧ v = coerceUTF8 pl.Avatar))) ∧
    (∀ s : String, pl.Username = utf8 s → coerceUTF8 pl.Username = s) ∧
    (∀ s : String, pl.Avatar = utf8 s → coerceUTF8 pl.Avatar = s) ∧
    (pl = ⟨utf8 "newname", []⟩ →
      members pl = [("username", utf8 "newname")] ∧
        renderObject (members pl) = "\x7b\"username\":\"newname\"\x7d") := by
  have hread : readObject (renderObject (members pl) ++ "\n") =
      some ((if pl.Username = [] then [] else [("username", coerceUTF8 pl.Username)]) ++
        (if pl.Avatar = [] then [] else [("avatar", coerceUTF8 pl.Avatar)]), "\n") := by
    rw [readObject_render, members_eq]
    by_cases hu : pl.Username = [] <;> by_cases ha : pl.Avatar = [] <;> simp [hu, ha]
  refine ⟨?_, ?_, rfl, hread, ?_, ?_, ?_, ?_⟩
  · intro req hreq
    rw [modifyUser_trace] at hreq
    split_ifs at hreq
    · simpa using hreq
    · simp at hreq
  · intro h
    rw [modifyUser_trace, if_pos h]
    simp
  · intro ms rest hms
    rw [hread] at hms
    simp only [Option.some.injEq, Prod.mk.injEq] at hms
    obtain ⟨rfl, -⟩ := hms
    refine ⟨?_, ?_, ?_⟩
    · by_cases hu : pl.Username = [] <;> by_cases ha : pl.Avatar = [] <;> simp [hu, ha]
    · by_cases hu : pl.Username = [] <;> by_cases ha : pl.Avatar = [] <;> simp [hu, ha]
    · intro k v hkv
      by_cases hu : pl.Username = [] <;> by_cases ha : pl.Avatar = [] <;>
        simp [hu, ha] at hkv <;> simp [hkv]
  · intro s hs
    rw [hs]; exact coerceUTF8_utf8 s
  · intro s hs
    rw [hs]; exact coerceUTF8_utf8 s
  · rintro rfl
    exact ⟨by decide, by decide⟩

/-- Witness for C6 (as amended): the request sent for the token `T1` and the username
`newname`; a username that contains quotes and commas is read back as one member. -/
theorem modifyUser_body_witness :
    (modifyUser scenarioWorld "T1" ⟨utf8 "newname", []⟩).2 =
        [Event.NewRequest "PATCH" "https://discord.com/api/v10/users/@me",
          Event.Do ⟨"PATCH", "https://discord.com/api/v10/users/@me",
            [("Authorization", "Bot T1"), ("Content-Type", "application/json")],
            "\x7b\"username\":\"newname\"\x7d\n"⟩] ∧
      Event.Do (patchRequest "T1" (renderObject (members ⟨utf8 "newname", []⟩) ++ "\n")) ∈
        (modifyUser scenarioWorld "T1" ⟨utf8 "newname", []⟩).2 ∧
      readObject "\x7b\"username\":\"newname\"\x7d\n" = some ([("username", "newname")], "\n") ∧
      renderObject (members ⟨utf8 "a\",\"avatar\":\"evil", []⟩) =
        "\x7b\"username\":\"a\\\",\\\"avatar\\\":\\\"evil\"\x7d" ∧
      readObject (renderObject (members ⟨utf8 "a\",\"avatar\":\"evil", []⟩) ++ "\n") =
        some ([("username", "a\",\"avatar\":\"evil")], "\n") ∧
      renderObject (members ⟨utf8 "\x08\x0c<\n", utf8 "x"⟩) =
        "\x7b\"username\":\"\\b\\f\\u003c\\n\",\"avatar\":\"x\"\x7d" ∧
      (members ⟨utf8 "newname", []⟩ = [("username", utf8 "newname")] ∧
        renderObject (members ⟨utf8 "newname", []⟩) = "\x7b\"username\":\"newname\"\x7d") :=
  ⟨by decide,
    (modifyUser_body scenarioWorld "T1" ⟨utf8 "newname", []⟩).2.1 (by decide),
    by decide, by decide, by decide, by decide,
    (modifyUser_body scenarioWorld "T1" ⟨utf8 "newname", []⟩).2.2.2.2.2.2.2 rfl⟩

/-- C6 (counterexample to the claim as stated): the username consists of the three
bytes `FF FE FD`, which are not valid UTF-8.  `init` accepts it, and the body that is
sent has the member `username` with the value U+FFFD U+FFFD U+FFFD, which is not the
value of the field. -/
theorem modifyUser_body_invalid_utf8 :
    init [0xFF, 0xFE, 0xFD] "" = ([], none) ∧
      Event.Do (patchRequest "T1" "\x7b\"username\":\"\\ufffd\\ufffd\\ufffd\"\x7d\n") ∈
        (run scenarioWorld [0xFF, 0xFE, 0xFD] "").1 ∧
      jsonEncode ⟨[0xFF, 0xFE, 0xFD], []⟩ =
        .ok "\x7b\"username\":\"\\ufffd\\ufffd\\ufffd\"\x7d\n" ∧
      readObject "\x7b\"username\":\"\\ufffd\\ufffd\\ufffd\"\x7d\n" =
        some ([("username", "\uFFFD\uFFFD\uFFFD")], "\n") ∧
      utf8 "\uFFFD\uFFFD\uFFFD" ≠ [0xFF, 0xFE, 0xFD] := by
  decide

/-- Helper: a text occurs inside every text built around it. -/
theorem contains_mid (a s b : String) : Contains (a ++ s ++ b) s := by
  unfold Contains
  simp only [String.data_append]
  exact List.infix_append _ _ _

/-- C7: when the response to the PATCH has a status code other than 200,
`modifyUser` returns no user but the error `discord responded with non-200 status:`
followed by the status text of the response; `main` then exits with code 1, writes
that error to standard error, and writes nothing to standard output beyond what
`getToken` wrote: no `Updated user` header, no username line, no avatar line. -/
theorem modifyUser_non200 (w : World) (token : String) (pl : ModifyCurrentUser)
    (res : Response)
    (hreq : w.NewRequest "PATCH" "https://discord.com/api/v10/users/@me" = none)
    (hdo : w.Do (patchRequest token (renderObject (members pl) ++ "\n")) = .ok res)
    (hcode : res.StatusCode ≠ 200) :
    (modifyUser w token pl).1 =
        .error ("discord responded with non-200 status: " ++ res.Status) ∧
      Contains ("discord responded with non-200 status: " ++ res.Status) res.Status ∧
      ∀ username avatar t, buildPatch w username avatar = (t, .ok (token, pl)) →
        ¬(pl.Avatar = [] ∧ pl.Username = []) →
        (main w username avatar).2 = 1 ∧
          stderrOf (main w username avatar).1 =
            "failed to modify user: discord responded with non-200 status: " ++ res.Status ++
              "\n" ∧
          Contains (stderrOf (main w username avatar).1) res.Status ∧
          stdoutOf (main w username avatar).1 = stdoutOf (getToken w).2 ∧
          ¬Contains (stdoutOf (main w username avatar).1) "Updated user" ∧
          ¬Contains (stdoutOf (main w username avatar).1) "Username: " ∧
          ¬Contains (stdoutOf (main w username avatar).1) "Avatar" := by
  have hm := modifyUser_status w token pl res hreq hdo hcode
  refine ⟨by rw [hm], ?_, ?_⟩
  · have := contains_mid "discord responded with non-200 status: " res.Status ""
    simpa using this
  · intro username avatar t hb hne
    have hbo := buildPatch_ok w username avatar token t pl hb
    have hsub : submit w token pl =
        ([Event.NewRequest "PATCH" "https://discord.com/api/v10/users/@me",
          Event.Do (patchRequest token (renderObject (members pl) ++ "\n")),
          Event.Stderr ("failed to modify user: " ++
            ("discord responded with non-200 status: " ++ res.Status) ++ "\n")], 1) := by
      unfold submit
      rw [if_neg hne, hm]
      rfl
    have hmain := main_of_buildPatch w username avatar token t pl hb
    rw [hsub] at hmain
    have hout : stdoutOf (main w username avatar).1 = stdoutOf (getToken w).2 := by
      rw [hmain]
      simp only [stdoutOf_append, hbo.2.2.2.1]
      simp [stdoutOf]
    have herr : stderrOf (main w username avatar).1 =
        "failed to modify user: discord responded with non-200 status: " ++ res.Status ++
          "\n" := by
      rw [hmain]
      have hlit : "failed to modify user: " ++ "discord responded with non-200 status: " =
          "failed to modify user: discord responded with non-200 status: " := by decide
      simp only [stderrOf_append, hbo.2.2.2.2]
      simp only [stderrOf, String.append_empty, String.empty_append, ← String.append_assoc, hlit]
    have htok := getToken_output w
    refine ⟨by rw [hmain], herr, ?_, hout, ?_, ?_, ?_⟩
    · rw [herr]
      exact contains_mid _ _ _
    · rw [hout]
      rcases htok.2.1 with h | h <;> rw [h] <;> decide
    · rw [hout]
      rcases htok.2.1 with h | h <;> rw [h] <;> decide
    · rw [hout]
      rcases htok.2.1 with h | h <;> rw [h] <;> decide

/-- Witness for C7: the API answers `403 Forbidden` to the request for the username
`newname`; the run ends with exit code 1 and an empty standard output. -/
theorem modifyUser_non200_witness :
    (modifyUser forbiddenWorld "T1" ⟨utf8 "newname", []⟩).1 =
        .error "discord responded with non-200 status: 403 Forbidden" ∧
      run forbiddenWorld (utf8 "newname") "" =
        ([Event.LookupEnv "DISCORD_TOKEN",
          Event.NewRequest "PATCH" "https://discord.com/api/v10/users/@me",
          Event.Do (patchRequest "T1" "\x7b\"username\":\"newname\"\x7d\n"),
          Event.Stderr
            "failed to modify user: discord responded with non-200 status: 403 Forbidden\n"],
          1) ∧
      (main forbiddenWorld (utf8 "newname") "").2 = 1 ∧
      stdoutOf (main forbiddenWorld (utf8 "newname") "").1 = "" ∧
      Contains (stderrOf (main forbiddenWorld (utf8 "newname") "").1) "403 Forbidden" :=
  have h := modifyUser_non200 forbiddenWorld "T1" ⟨utf8 "newname", []⟩ ⟨403, "403 Forbidden", .ok []⟩
    (by decide) rfl (by decide)
  have h2 := h.2.2 (utf8 "newname") "" [Event.LookupEnv "DISCORD_TOKEN"] (by decide) (by decide)
  ⟨h.1, by decide, h2.1, by decide, h2.2.2.1⟩

/-- Helper: when `buildPatch` continues, its token is the non-empty token that
`getToken` returned. -/
theorem buildPatch_token (w : World) (username : GoString) (avatar tkn : String)
    (t : List Event) (patch : ModifyCurrentUser)
    (h : buildPatch w username avatar = (t, .ok (tkn, patch))) :
    (getToken w).1 = some tkn ∧ tkn ≠ "" := by
  unfold buildPatch at h
  rcases hg : getToken w with ⟨tk, t0⟩
  rw [hg] at h
  cases tk with
  | none => simp at h
  | some tk =>
    simp only at h
    by_cases h1 : tk = ""
    · simp [h1] at h
    · by_cases h2 : avatar = ""
      · simp only [h1, if_false, h2, ne_eq, not_true_eq_false, Prod.mk.injEq,
          Except.ok.injEq] at h
        obtain ⟨-, rfl, -⟩ := h
        exact ⟨rfl, h1⟩
      · rcases ha : getAvatarBase64 w avatar with ⟨⟨b64, mime, err⟩, ta⟩
        cases err with
        | some e => simp [h1, h2, ha] at h
        | none =>
          simp only [h1, if_false, h2, ne_eq, not_false_eq_true, if_true, ha, Prod.mk.injEq,
            Except.ok.injEq] at h
          obtain ⟨-, rfl, -⟩ := h
          exact ⟨rfl, h1⟩

/-- Helper: a non-empty token that does not come from the environment was typed at
the prompt, so the prompt and a newline are on standard output. -/
theorem getToken_prompt (w : World) (tkn : String) (h : (getToken w).1 = some tkn)
    (hne : tkn ≠ "") (henv : w.LookupEnv "DISCORD_TOKEN" = none) :
    stdoutOf (getToken w).2 = "Bot Token (imput feedback is NOT shown) >> \n" := by
  unfold getToken isTTY at h ⊢
  rw [henv] at h ⊢
  cases h2 : w.StdoutCharDevice with
  | none => simp [h2] at h
  | some b =>
    cases b with
    | false =>
      simp only [h2, Option.some.injEq] at h
      exact absurd h.symm hne
    | true =>
      have hlit : "Bot Token (imput feedback is NOT shown) >> " ++ ("\n" ++ "") =
          "Bot Token (imput feedback is NOT shown) >> \n" := by decide
      cases h3 : w.ReadPassword with
      | error e =>
        simp only [h2, h3, Option.some.injEq] at h
        exact absurd h.symm hne
      | ok tk => simp [stdoutOf, hlit]

/-- Helper: what `submit` does when `modifyUser` returns a user. -/
theorem submit_ok (w : World) (tkn : String) (patch : ModifyCurrentUser) (u : User)
    (hne : ¬(patch.Avatar = [] ∧ patch.Username = []))
    (hm : (modifyUser w tkn patch).1 = .ok u) :
    (submit w tkn patch).2 = 0 ∧
      stdoutOf (submit w tkn patch).1 =
        "Updated user\n" ++
          (if patch.Username ≠ [] then
            "  => Username: " ++ u.Username ++ "#" ++ u.Discriminator ++ "\n" else "") ++
          (if patch.Avatar ≠ [] then
            "  => Avatar  : https://cdn.discordapp.com/avatars/" ++ u.ID ++ "/" ++ u.Avatar ++
              ".png\n" else "") := by
  have htr := modifyUser_trace w tkn patch
  have hreq := (modifyUser_ok w tkn patch u hm).1
  rw [if_pos hreq] at htr
  rcases hmu : modifyUser w tkn patch with ⟨r, t⟩
  rw [hmu] at hm htr
  simp only at hm htr
  subst hm htr
  unfold submit
  rw [if_neg hne, hmu]
  refine ⟨rfl, ?_⟩
  by_cases h1 : patch.Username = [] <;> by_cases h2 : patch.Avatar = [] <;>
    simp [h1, h2, stdoutOf, String.append_assoc]

/-- C9 (as amended): in every run that ends with exit code 0 the API has answered the
PATCH with status 200 and an account `u`, and standard output is whatever `getToken`
wrote (nothing when the token came from the environment; the prompt and a newline
when the environment variable is not set and the token was read from the terminal)
followed by the line `Updated user`, then the line
`  => Username: <u.Username>#<u.Discriminator>` exactly when a username was requested,
then the line `  => Avatar  : https://cdn.discordapp.com/avatars/<u.ID>/<u.Avatar>.png`
exactly when an avatar was requested. -/
theorem confirmation_output (w : World) (username : GoString) (avatar : String)
    (hok : (run w username avatar).2 = 0) :
    ∃ tkn patch res u,
      (buildPatch w username avatar).2 = .ok (tkn, patch) ∧
      w.Do (patchRequest tkn (renderObject (members patch) ++ "\n")) = .ok res ∧
      res.StatusCode = 200 ∧ w.DecodeUser res = .ok u ∧
      stdoutOf (run w username avatar).1 =
        stdoutOf (getToken w).2 ++
          ("Updated user\n" ++
            (if username ≠ [] then
              "  => Username: " ++ u.Username ++ "#" ++ u.Discriminator ++ "\n" else "") ++
            (if avatar ≠ "" then
              "  => Avatar  : https://cdn.discordapp.com/avatars/" ++ u.ID ++ "/" ++ u.Avatar ++
                ".png\n" else "")) ∧
      (stdoutOf (getToken w).2 = "" ∨
        stdoutOf (getToken w).2 = "Bot Token (imput feedback is NOT shown) >> \n") ∧
      (w.LookupEnv "DISCORD_TOKEN" ≠ none → stdoutOf (getToken w).2 = "") ∧
      (w.LookupEnv "DISCORD_TOKEN" = none →
        stdoutOf (getToken w).2 = "Bot Token (imput feedback is NOT shown) >> \n") := by
  have htok := getToken_output w
  have hinit : (init username avatar).2 = none ∧ (init username avatar).1 = [] ∨
      (init username avatar).2 = some 1 := by
    unfold init
    split_ifs <;> simp
  rcases hi : init username avatar with ⟨ti, ci⟩
  rw [hi] at hinit
  cases ci with
  | some c =>
    exfalso
    have hrun : run w username avatar = (ti, c) := by
      unfold run; rw [hi]
    rw [hrun] at hok
    simp only [reduceCtorEq, Option.some.injEq, false_and, false_or] at hinit hok
    omega
  | none =>
    simp only [reduceCtorEq, or_false, true_and] at hinit
    subst hinit
    have hrun : run w username avatar = main w username avatar := by
      unfold run; rw [hi]; simp
    rw [hrun] at hok ⊢
    rcases hb : buildPatch w username avatar with ⟨t, r⟩
    cases r with
    | error c =>
      exfalso
      have hc : c = 1 ∨ c = 2 := by
        unfold buildPatch at hb
        rcases hg : getToken w with ⟨tk, t0⟩
        rw [hg] at hb
        cases tk with
        | none => simp at hb; exact Or.inr hb.2.symm
        | some tk =>
          simp only at hb
          by_cases h1 : tk = ""
          · simp [h1] at hb; exact Or.inl hb.2.symm
          · by_cases h2 : avatar = ""
            · simp [h1, h2] at hb
            · rcases ha : getAvatarBase64 w avatar with ⟨⟨b64, mime, err⟩, ta⟩
              cases err with
              | some e => simp [h1, h2, ha] at hb; exact Or.inl hb.2.symm
              | none => simp [h1, h2, ha] at hb
      unfold main at hok
      rw [hb] at hok
      simp only at hok
      omega
    | ok p =>
      obtain ⟨tkn, patch⟩ := p
      have hbo := buildPatch_ok w username avatar tkn t patch hb
      have hmain := main_of_buildPatch w username avatar tkn t patch hb
      rw [hmain] at hok ⊢
      simp only at hok ⊢
      by_cases hne : patch.Avatar = [] ∧ patch.Username = []
      · exfalso
        unfold submit at hok
        rw [if_pos hne] at hok
        simp at hok
      · rcases hmu : modifyUser w tkn patch with ⟨r, tm⟩
        cases r with
        | error e =>
          exfalso
          unfold submit at hok
          rw [if_neg hne, hmu] at hok
          simp at hok
        | ok u =>
          have hm : (modifyUser w tkn patch).1 = .ok u := by rw [hmu]
          obtain ⟨_, res, hdo, hcode, hdec⟩ := modifyUser_ok w tkn patch u hm
          have hs := submit_ok w tkn patch u hne hm
          have htk := buildPatch_token w username avatar tkn t patch hb
          refine ⟨tkn, patch, res, u, rfl, hdo, hcode, hdec, ?_, htok.2.1, htok.2.2.1,
            fun henv => getToken_prompt w tkn htk.1 htk.2 henv⟩
          rw [stdoutOf_append, hbo.2.2.2.1, hs.2, hbo.2.1]
          by_cases ha : avatar = ""
          · have hpa : patch.Avatar = [] := by
              by_contra hc
              exact (hbo.2.2.1.1 hc) ha
            simp [ha, hpa]
          · have hpa : patch.Avatar ≠ [] := hbo.2.2.1.2 ha
            simp [ha, hpa]

/-- Witness for C9 (as amended): the end-to-end scenario.  The token `T1` comes from
the environment, only the username `newname` is requested and the API returns the
account with id 42, username `newname`, discriminator `0001` and avatar `abc`;
standard output is the header and the username line, with no avatar line.  When the
same token is typed at the prompt, the prompt and a newline come first. -/
theorem confirmation_output_witness :
    (run scenarioWorld (utf8 "newname") "").2 = 0 ∧
      stdoutOf (run scenarioWorld (utf8 "newname") "").1 =
        "Updated user\n  => Username: newname#0001\n" ∧
      Contains (stdoutOf (run scenarioWorld (utf8 "newname") "").1) "Username: newname#0001" ∧
      ¬Contains (stdoutOf (run scenarioWorld (utf8 "newname") "").1) "Avatar" ∧
      (∃ tkn patch res u,
        (buildPatch scenarioWorld (utf8 "newname") "").2 = .ok (tkn, patch) ∧
        scenarioWorld.Do (patchRequest tkn (renderObject (members patch) ++ "\n")) = .ok res ∧
        res.StatusCode = 200 ∧ scenarioWorld.DecodeUser res = .ok u ∧
        stdoutOf (run scenarioWorld (utf8 "newname") "").1 =
          stdoutOf (getToken scenarioWorld).2 ++
            ("Updated user\n" ++
              (if utf8 "newname" ≠ [] then
                "  => Username: " ++ u.Username ++ "#" ++ u.Discriminator ++ "\n" else "") ++
              (if "" ≠ "" then
                "  => Avatar  : https://cdn.discordapp.com/avatars/" ++ u.ID ++ "/" ++ u.Avatar ++
                  ".png\n" else "")) ∧
        (stdoutOf (getToken scenarioWorld).2 = "" ∨
          stdoutOf (getToken scenarioWorld).2 =
            "Bot Token (imput feedback is NOT shown) >> \n") ∧
        (scenarioWorld.LookupEnv "DISCORD_TOKEN" ≠ none →
          stdoutOf (getToken scenarioWorld).2 = "") ∧
        (scenarioWorld.LookupEnv "DISCORD_TOKEN" = none →
          stdoutOf (getToken scenarioWorld).2 =
            "Bot Token (imput feedback is NOT shown) >> \n")) ∧
      (run promptWorld (utf8 "newname") "").2 = 0 ∧
      promptWorld.LookupEnv "DISCORD_TOKEN" = none ∧
      stdoutOf (getToken promptWorld).2 = "Bot Token (imput feedback is NOT shown) >> \n" ∧
      stdoutOf (run promptWorld (utf8 "newname") "").1 =
        "Bot Token (imput feedback is NOT shown) >> \n" ++
          "Updated user\n  => Username: newname#0001\n" :=
  ⟨by decide, by decide, by decide, by decide,
    confirmation_output scenarioWorld (utf8 "newname") "" (by decide),
    by decide, rfl,
    (match confirmation_output promptWorld (utf8 "newname") "" (by decide) with
      | ⟨_, _, _, _, _, _, _, _, _, _, _, hp⟩ => hp rfl),
    by decide⟩

/-- C9 (counterexample to the claim as stated): the token is typed at the prompt, the
run succeeds, and standard output begins with the prompt, not with the header
`Updated user`. -/
theorem confirmation_output_prompt :
    (run promptWorld (utf8 "newname") "").2 = 0 ∧
      stdoutOf (run promptWorld (utf8 "newname") "").1 =
        "Bot Token (imput feedback is NOT shown) >> \nUpdated user\n  => Username: newname#0001\n" ∧
      stdoutOf (run promptWorld (utf8 "newname") "").1 ≠
        "Updated user\n  => Username: newname#0001\n" ∧
      ¬("Updated user".data <+: (stdoutOf (run promptWorld (utf8 "newname") "").1).data) := by
  decide

/-- Helper: the test vectors of RFC 4648, section 10, for the base64 alphabet with
padding. -/
theorem EncodeToString_vectors :
    EncodeToString (ascii "") = "" ∧
      EncodeToString (ascii "f") = "Zg==" ∧
      EncodeToString (ascii "fo") = "Zm8=" ∧
      EncodeToString (ascii "foo") = "Zm9v" ∧
      EncodeToString (ascii "foob") = "Zm9vYg==" ∧
      EncodeToString (ascii "fooba") = "Zm9vYmE=" ∧
      EncodeToString (ascii "foobar") = "Zm9vYmFy" := by
  decide

/-- Helper: the base64 text has four characters for every started group of three
bytes. -/
theorem encodeChars_length : ∀ src : List Byte,
    (encodeChars src).length = 4 * ((src.length + 2) / 3)
  | [] => rfl
  | [_] => by simp [encodeChars]
  | [_, _] => by simp [encodeChars]
  | _ :: _ :: _ :: rest => by
    have ih := encodeChars_length rest
    simp only [encodeChars, List.length_cons, ih]
    omega

/-- Helper: content types sniffed for a JPEG header, a GIF header and plain text. -/
theorem DetectContentType_examples :
    DetectContentType [0xFF, 0xD8, 0xFF, 0xE0, 0x00, 0x10] = "image/jpeg" ∧
      DetectContentType (ascii "GIF87a") = "image/gif" ∧
      DetectContentType (ascii ".snd" ++ [0, 0, 0, 24]) = "audio/basic" ∧
      DetectContentType (ascii "hello") = "text/plain; charset=utf-8" ∧
      DetectContentType [0x00, 0x01, 0x02] = "application/octet-stream" ∧
      isMimeTypeAllowed "image/jpeg" = true ∧ isMimeTypeAllowed "image/png" = true ∧
      isMimeTypeAllowed "image/gif" = false := by
  decide

end Updatebot
